import Mathlib

/-!
# Class interceptor of the Dalvik VM (`vm/reflect/Intercept.cpp`)

A shallow embedding of the interceptor: the table `classHandlers`, the lookup
`findClassHandler`, the class patcher `dvmInterceptClass` and the call guard
`dvmResetHandlerMethod` / `dvmRestoreHandlerMethod`.

Memory is a family of typed heaps, each a list indexed by address (classes,
dispatch tables, methods, bytecode, objects).  A C pointer
is an `Option Nat`: `none` is `NULL`, `some a` is the cell `a` of the heap of
the pointer's type.  Dereferencing `NULL`, a dangling address or a freed cell is
a `Fault`.  Allocation appends cells at the end of a heap, so a fresh address
never aliases a live one.  The global mutex and the memory barriers have no
effect on a sequential run and are left out.
-/

namespace Intercept

/-- Ways in which a run of the C code goes wrong. -/
inductive Fault where
  /-- a `NULL` pointer is dereferenced -/
  | nullDeref
  /-- an address outside the heap, or a freed cell, is dereferenced -/
  | badPointer
  /-- an array is indexed beyond its allocation -/
  | outOfBounds
  /-- the walk along `super` never reaches `NULL` -/
  | diverge
  deriving DecidableEq, Repr

deriving instance DecidableEq for Except

/-- Value of the field `insns` (`const u2*`): `NULL`, an address in the heap of
bytecode, or, for a handler method, the address of a `Method` (`(u2*) srcMeth`). -/
inductive InsnsPtr where
  | null
  | code (addr : Nat)
  | method (addr : Nat)
  deriving DecidableEq, Repr

/-- The struct `Method`, with the fields that `dumpMethod` lists. -/
structure Method where
  name : String
  clazz : Option Nat := none
  accessFlags : Nat := 0
  methodIndex : Nat := 0
  registersSize : Nat := 0
  outsSize : Nat := 0
  insSize : Nat := 0
  protoIdx : Nat := 0
  shorty : String := ""
  insns : InsnsPtr := InsnsPtr.null
  jniArgInfo : Nat := 0
  nativeFunc : Option Nat := none
  fastJni : Bool := false
  noRef : Bool := false
  shouldTrace : Bool := false
  registerMap : Option Nat := none
  inProfile : Bool := false
  deriving DecidableEq, Repr

/-- Content of freshly allocated, zero-filled `Method` storage. -/
def Method.zero : Method := { name := "" }

/-- The fields of `ClassObject` that the interceptor reads or writes. -/
structure ClassObject where
  descriptor : String
  super : Option Nat := none
  vtableCount : Nat := 0
  vtable : Option Nat := none
  classLoader : Option Nat := none
  deriving DecidableEq, Repr

/-- An `Object`: its class pointer and its instance fields by byte offset. -/
structure Object where
  clazz : Option Nat
  fields : List (Int × Option Nat) := []
  deriving DecidableEq, Repr

/-- One row of `classHandlers` (`struct ClassHandler`). -/
structure ClassHandler where
  name : String
  clazz : Option Nat
  methodNames : List String
  handlerName : String
  handlerClass : Option Nat
  handlerOffset : Int
  vtable : Option Nat
  oldVtable : Option Nat
  deriving DecidableEq, Repr

/-- The method names intercepted from `android.app.Activity`
(the entries before the terminating `NULL`). -/
def activityMethods : List String := ["onResume"]

/-- The compiled-in table (the rows before the terminating all-`NULL` row). -/
def classHandlers : List ClassHandler :=
  [ { name := "Landroid/app/Activity;", clazz := none, methodNames := activityMethods,
      handlerName := "Landroid/app/ActivityInvocationHandler;", handlerClass := none,
      handlerOffset := 0, vtable := none, oldVtable := none } ]

/-- The one row of the compiled-in table. -/
def activityHandler : ClassHandler :=
  { name := "Landroid/app/Activity;", clazz := none, methodNames := activityMethods,
    handlerName := "Landroid/app/ActivityInvocationHandler;", handlerClass := none,
    handlerOffset := 0, vtable := none, oldVtable := none }

/-- The memory the interceptor works on. -/
structure State where
  /-- the table `classHandlers`, fields as currently resolved -/
  classHandlers : List ClassHandler
  /-- heap of `ClassObject` -/
  classes : List ClassObject
  /-- heap of `Method*` arrays (dispatch tables) -/
  vtables : List (List (Option Nat))
  /-- heap of `Method`; `none` is a freed cell -/
  methods : List (Option Method)
  /-- heap of bytecode; the cell at an address is given as the `Method` that the
  bytes there make when they are read through a `Method*` -/
  code : List Method
  /-- heap of `Object` -/
  objects : List Object
  /-- number of calls of `dvmLinearAlloc` and `malloc` so far -/
  allocCount : Nat
  /-- the global `gDvm.classJavaLangReflectProxy` -/
  classJavaLangReflectProxy : Option Nat
  /-- the global `gDvm.offJavaLangReflectProxy_h` -/
  offJavaLangReflectProxy_h : Int
  deriving DecidableEq, Repr

/-- Functions of the VM that the interceptor calls and that live outside
`Intercept.cpp`.  The embedding takes them as parameters: every theorem holds
for whatever they answer, unless it says otherwise. -/
structure Engine where
  /-- `dvmFindSystemClass(name)`: the class, or `NULL` when it cannot be found -/
  dvmFindSystemClass : String → Option Nat
  /-- `dvmFindFieldOffset(clazz, "h", "Ljava/lang/reflect/InvocationHandler;")`:
  the byte offset of the field, negative when the class has no such field -/
  dvmFindFieldOffset : Option Nat → Int
  /-- `createHandlerMethod(clazz, dstMeth, srcMeth)`: the content it gives to the
  zero-filled `*dstMeth`, from the class, the address `srcMeth` and `*srcMeth` -/
  createHandlerMethod : Option Nat → Option Nat → Method → Method

/-! ## Loads and stores -/

/-- Read `*c` for a `ClassObject* c`. -/
def loadClass (s : State) (c : Option Nat) : Except Fault ClassObject :=
  match c with
  | none => .error .nullDeref
  | some a =>
    match s.classes[a]? with
    | some cls => .ok cls
    | none => .error .badPointer

/-- Read `*o` for an `Object* o`. -/
def loadObject (s : State) (o : Option Nat) : Except Fault Object :=
  match o with
  | none => .error .nullDeref
  | some a =>
    match s.objects[a]? with
    | some obj => .ok obj
    | none => .error .badPointer

/-- Read `*m` for a `Method* m`. -/
def loadMethod (s : State) (m : Option Nat) : Except Fault Method :=
  match m with
  | none => .error .nullDeref
  | some a =>
    match s.methods[a]? with
    | some (some v) => .ok v
    | _ => .error .badPointer

/-- Write `*m = v` for a `Method* m`. -/
def storeMethod (s : State) (m : Option Nat) (v : Method) : Except Fault State :=
  match m with
  | none => .error .nullDeref
  | some a =>
    match s.methods[a]? with
    | some (some _) => .ok { s with methods := s.methods.set a (some v) }
    | _ => .error .badPointer

/-- Read `t[i]` for a `Method** t`. -/
def loadSlot (s : State) (t : Option Nat) (i : Nat) : Except Fault (Option Nat) :=
  match t with
  | none => .error .nullDeref
  | some a =>
    match s.vtables[a]? with
    | none => .error .badPointer
    | some arr =>
      match arr[i]? with
      | some m => .ok m
      | none => .error .outOfBounds

/-- Write `t[i] = m` for a `Method** t`. -/
def storeSlot (s : State) (t : Option Nat) (i : Nat) (m : Option Nat) : Except Fault State :=
  match t with
  | none => .error .nullDeref
  | some a =>
    match s.vtables[a]? with
    | none => .error .badPointer
    | some arr =>
      if i < arr.length then .ok { s with vtables := s.vtables.set a (arr.set i m) }
      else .error .outOfBounds

/-- Write `c->vtable = v` for a `ClassObject* c`. -/
def storeClassVtable (s : State) (c : Option Nat) (v : Option Nat) : Except Fault State :=
  match c with
  | none => .error .nullDeref
  | some a =>
    match s.classes[a]? with
    | some cls => .ok { s with classes := s.classes.set a { cls with vtable := v } }
    | none => .error .badPointer

/-- Read `*p` for a `ClassHandler* p` (a row index, or `NULL`). -/
def loadHandler (s : State) (p : Option Nat) : Except Fault ClassHandler :=
  match p with
  | none => .error .nullDeref
  | some i =>
    match s.classHandlers[i]? with
    | some e => .ok e
    | none => .error .badPointer

/-- Replace row `i` of the table. -/
def storeHandler (s : State) (i : Nat) (e : ClassHandler) : State :=
  { s with classHandlers := s.classHandlers.set i e }

/-- `dvmGetFieldObject(obj, offset)`: the reference stored at that offset. -/
def dvmGetFieldObject (o : Object) (offset : Int) : Except Fault (Option Nat) :=
  match o.fields.lookup offset with
  | some v => .ok v
  | none => .error .outOfBounds

/-- `dvmLinearAlloc(loader, n * sizeof(Method*))`: a fresh array of `n` slots. -/
def allocSlots (s : State) (n : Nat) : Nat × State :=
  (s.vtables.length,
    { s with vtables := s.vtables ++ [List.replicate n none], allocCount := s.allocCount + 1 })

/-- `dvmLinearAlloc(loader, n * sizeof(Method))`: `n` fresh consecutive `Method`
cells; the result is the address of the first. -/
def allocMethods (s : State) (n : Nat) : Nat × State :=
  (s.methods.length,
    { s with methods := s.methods ++ List.replicate n (some Method.zero),
             allocCount := s.allocCount + 1 })

/-- `malloc(sizeof(Method))` -/
def malloc (s : State) : Nat × State :=
  (s.methods.length,
    { s with methods := s.methods ++ [some Method.zero], allocCount := s.allocCount + 1 })

/-- `free(m)` for a `Method* m` -/
def free (s : State) (m : Option Nat) : Except Fault State :=
  match m with
  | none => .ok s
  | some a =>
    match s.methods[a]? with
    | some (some _) => .ok { s with methods := s.methods.set a none }
    | _ => .error .badPointer

/-! ## `findClassHandler` -/

/-- The inner loop of `findClassHandler`: `p` runs over the rows from row `i` on
and stops at the first row with `strcmp(descriptor, p->name) == 0`. -/
def scanTable : List ClassHandler → String → Nat → Option Nat
  | [], _, _ => none
  | p :: rest, descriptor, i =>
    if descriptor = p.name then some i else scanTable rest descriptor (i + 1)

/-- The outer loop of `findClassHandler`.  `fuel` bounds the number of classes
visited; running out of it stands for a walk that never ends. -/
def findClassHandlerLoop (table : List ClassHandler) (classes : List ClassObject)
    (recursive : Bool) : Nat → Option Nat → Except Fault (Option Nat)
  | _, none => .ok none
  | 0, some _ => .error .diverge
  | fuel + 1, some a =>
    match classes[a]? with
    | none => .error .badPointer
    | some cls =>
      match scanTable table cls.descriptor 0 with
      | some i => .ok (some i)
      | none => findClassHandlerLoop table classes recursive fuel
                  (if recursive then cls.super else none)

/-- `findClassHandler(clazz, recursive)`: the row found, or `NULL`.  A walk over
more classes than the heap holds has met a class twice and would go on for ever,
so the number of classes is enough fuel. -/
def findClassHandler (s : State) (clazz : Option Nat) (recursive : Bool) :
    Except Fault (Option Nat) :=
  findClassHandlerLoop s.classHandlers s.classes recursive s.classes.length clazz

/-! ## Handler access -/

/-- `dvmGetInvocationHandler(obj)` -/
def dvmGetInvocationHandler (s : State) (obj : Option Nat) : Except Fault (Option Nat) := do
  let o ← loadObject s obj
  -- obj->clazz != NULL && obj->clazz->super == gDvm.classJavaLangReflectProxy
  let isProxy ← (match o.clazz with
    | none => .ok false
    | some c => do
      let cls ← loadClass s (some c)
      .ok (decide (cls.super = s.classJavaLangReflectProxy)))
  if isProxy then
    dvmGetFieldObject o s.offJavaLangReflectProxy_h
  else do
    let p ← findClassHandler s o.clazz true
    -- p->handlerOffset
    let e ← loadHandler s p
    dvmGetFieldObject o e.handlerOffset

/-! ## The call guard -/

/-- Read `*(Method*) insns`.  The cast is unchecked: when `insns` addresses
bytecode, the bytes there are copied out as a `Method`. -/
def loadInsns (s : State) : InsnsPtr → Except Fault Method
  | .null => .error .nullDeref
  | .code a =>
    match s.code[a]? with
    | some v => .ok v
    | none => .error .badPointer
  | .method a => loadMethod s (some a)

/-- `dvmResetHandlerMethod(obj, handlerMethod)`: the returned `Method*` and the
memory after the call. -/
def dvmResetHandlerMethod (s : State) (obj handlerMethod : Option Nat) :
    Except Fault (Option Nat × State) := do
  let o ← loadObject s obj
  let oc ← loadClass s o.clazz
  if oc.super = s.classJavaLangReflectProxy then
    .ok (handlerMethod, s)
  else do
    let p ← findClassHandler s o.clazz true
    -- Method *method = (Method*)malloc(sizeof(Method)); *method = *handlerMethod;
    let (method, s1) := malloc s
    let hm ← loadMethod s1 handlerMethod
    let s2 ← storeMethod s1 (some method) hm
    -- p->clazz->vtable = p->oldVtable;
    let e ← loadHandler s2 p
    let s3 ← storeClassVtable s2 e.clazz e.oldVtable
    -- *handlerMethod = *(Method*)handlerMethod->insns;
    let hm3 ← loadMethod s3 handlerMethod
    let orig ← loadInsns s3 hm3.insns
    let s4 ← storeMethod s3 handlerMethod orig
    .ok (some method, s4)

/-- `dvmRestoreHandlerMethod(obj, handlerMethod, method)` -/
def dvmRestoreHandlerMethod (s : State) (obj handlerMethod method : Option Nat) :
    Except Fault State := do
  let o ← loadObject s obj
  let oc ← loadClass s o.clazz
  if oc.super = s.classJavaLangReflectProxy then
    .ok s
  else do
    let p ← findClassHandler s o.clazz true
    -- p->clazz->vtable = p->vtable;
    let e ← loadHandler s p
    let s1 ← storeClassVtable s e.clazz e.vtable
    -- *handlerMethod = *method;
    let tok ← loadMethod s1 method
    let s2 ← storeMethod s1 handlerMethod tok
    free s2 method

/-! ## Patching a class -/

/-- `initClassHandler(p, clazz)`: the return code and the memory after the call. -/
def initClassHandler (env : Engine) (s : State) (p : Nat) (clazz : Option Nat) :
    Except Fault (Int × State) := do
  let e ← loadHandler s (some p)
  let cls ← loadClass s clazz
  -- p->clazz = clazz; p->oldVtable = clazz->vtable;
  let e1 := { e with clazz := clazz, oldVtable := cls.vtable }
  -- p->handlerClass = dvmFindSystemClass(p->handlerName);
  let e2 := { e1 with handlerClass := env.dvmFindSystemClass e1.handlerName }
  if e2.handlerClass = none then
    .ok (-1, storeHandler s p e2)
  else
    -- p->handlerOffset = dvmFindFieldOffset(clazz, "h", ...);
    .ok (0, storeHandler s p { e2 with handlerOffset := env.dvmFindFieldOffset clazz })

/-- The loop of `needInterceptMethod` over the names before the `NULL`. -/
def scanNames : List String → String → Bool
  | [], _ => false
  | n :: rest, name => if name = n then true else scanNames rest name

/-- `needInterceptMethod(p, method)` -/
def needInterceptMethod (p : ClassHandler) (method : Method) : Bool :=
  scanNames p.methodNames method.name

/-- The `for` loop of `dvmInterceptClass` from index `i` on, with `n` rounds left.
`vtable` and `methods` are the two arrays just allocated. -/
def interceptLoop (env : Engine) (p : ClassHandler) (clazz : Option Nat) (vtable methods : Nat) :
    Nat → Nat → State → Except Fault State
  | 0, _, s => .ok s
  | n + 1, i, s => do
    let cls ← loadClass s clazz
    let src ← loadSlot s cls.vtable i
    let m ← loadMethod s src
    if needInterceptMethod p m then do
      -- vtable[i] = methods + i;
      let s1 ← storeSlot s (some vtable) i (some (methods + i))
      -- createHandlerMethod(clazz, vtable[i], clazz->vtable[i]);
      let dst ← loadSlot s1 (some vtable) i
      let cls1 ← loadClass s1 clazz
      let src1 ← loadSlot s1 cls1.vtable i
      let srcM ← loadMethod s1 src1
      let s2 ← storeMethod s1 dst (env.createHandlerMethod clazz src1 srcM)
      interceptLoop env p clazz vtable methods n (i + 1) s2
    else do
      -- methods[i] = *clazz->vtable[i];
      let s1 ← storeMethod s (some (methods + i)) m
      -- vtable[i] = methods + i;
      let s2 ← storeSlot s1 (some vtable) i (some (methods + i))
      interceptLoop env p clazz vtable methods n (i + 1) s2

/-- `dvmInterceptClass(clazz)`: the returned class pointer and the memory after
the call. -/
def dvmInterceptClass (env : Engine) (s : State) (clazz : Option Nat) :
    Except Fault (Option Nat × State) := do
  let p ← findClassHandler s clazz false
  match p with
  | none => .ok (clazz, s)
  | some i =>
    let e ← loadHandler s (some i)
    if e.handlerClass ≠ none then
      .ok (clazz, s)
    else do
      let (rc, s1) ← initClassHandler env s i clazz
      if rc ≠ 0 then
        .ok (clazz, s1)
      else do
        let cls ← loadClass s1 clazz
        let (vtable, s2) := allocSlots s1 cls.vtableCount
        let (methods, s3) := allocMethods s2 cls.vtableCount
        let e3 ← loadHandler s3 (some i)
        let s4 ← interceptLoop env e3 clazz vtable methods cls.vtableCount 0 s3
        -- p->vtable = clazz->vtable = vtable;
        let s5 ← storeClassVtable s4 clazz (some vtable)
        let e5 ← loadHandler s5 (some i)
        .ok (clazz, storeHandler s5 i { e5 with vtable := some vtable })

/-! ## Runs of several calls -/

/-- A sequence of calls of `dvmInterceptClass`, each with the engine as it
answers during that call. -/
def runPatches : State → List (Engine × Option Nat) → Except Fault State
  | s, [] => .ok s
  | s, call :: rest => do
    let r ← dvmInterceptClass call.1 s call.2
    runPatches r.2 rest

/-- A call of the guard: `dvmResetHandlerMethod(obj, handlerMethod)` or
`dvmRestoreHandlerMethod(obj, handlerMethod, method)`. -/
inductive GuardCall where
  | enter (obj handlerMethod : Option Nat)
  | leave (obj handlerMethod method : Option Nat)
  deriving DecidableEq, Repr

/-- The object of a call of the guard. -/
def GuardCall.obj : GuardCall → Option Nat
  | .enter obj _ => obj
  | .leave obj _ _ => obj

/-- The dispatch table that a call of the guard gives to the class of a row `e`:
`p->oldVtable` in `dvmResetHandlerMethod`, `p->vtable` in
`dvmRestoreHandlerMethod`. -/
def GuardCall.installs (e : ClassHandler) : GuardCall → Option Nat
  | .enter _ _ => e.oldVtable
  | .leave _ _ _ => e.vtable

/-- The memory after a call of the guard. -/
def guardStep (s : State) : GuardCall → Except Fault State
  | .enter obj handlerMethod => (dvmResetHandlerMethod s obj handlerMethod).map fun r => r.2
  | .leave obj handlerMethod method => dvmRestoreHandlerMethod s obj handlerMethod method

/-- Whether `obj` is an object, not a proxy, whose recursive lookup finds row `p`. -/
def onRow (s : State) (p : Nat) (obj : Option Nat) : Bool :=
  match loadObject s obj with
  | .error _ => false
  | .ok o =>
    match loadClass s o.clazz with
    | .error _ => false
    | .ok oc =>
      decide (oc.super ≠ s.classJavaLangReflectProxy) &&
        decide (findClassHandler s o.clazz true = .ok (some p))

/-- Whether a run of the code returns. -/
def returns {α : Type} : Except Fault α → Bool
  | .ok _ => true
  | .error _ => false

/-- Whether the reads that a call of the guard makes through its `Method*`
arguments succeed: `*handlerMethod` and `*(Method*)handlerMethod->insns` in
`dvmResetHandlerMethod`, `*handlerMethod` and `*method` in
`dvmRestoreHandlerMethod`. -/
def guardReads (s : State) : GuardCall → Bool
  | .enter _ handlerMethod =>
    returns (loadMethod s handlerMethod >>= fun hm => loadInsns s hm.insns)
  | .leave _ handlerMethod method =>
    returns (loadMethod s handlerMethod) && returns (loadMethod s method)

/-- A sequence of calls of the guard, each on an object that is no proxy and
that the lookup sends to row `p`; `none` when a call is on another object or
faults. -/
def guardRun (p : Nat) : State → List GuardCall → Option State
  | s, [] => some s
  | s, call :: rest =>
    if onRow s p call.obj then
      match guardStep s call with
      | .ok s₁ => guardRun p s₁ rest
      | .error _ => none
    else none

/-! ## The memory after a patch -/

/-- What the loop of `dvmInterceptClass` leaves in the new `Method` cell of a slot
whose original method has address `x.1` and content `x.2`. -/
def patchedMethod (env : Engine) (p : ClassHandler) (clazz : Option Nat) (x : Nat × Method) :
    Method :=
  if needInterceptMethod p x.2 then env.createHandlerMethod clazz (some x.1) x.2 else x.2

/-- The memory after a successful patch of class `c` (content `cls`) through row
`i` (content `e`), the handler class being `h` and the original dispatch table
holding the methods `orig` (address and content). -/
def patchedState (env : Engine) (s : State) (c : Nat) (cls : ClassObject) (i : Nat)
    (e : ClassHandler) (h : Nat) (orig : List (Nat × Method)) : State :=
  { s with
    classHandlers := s.classHandlers.set i
      { e with clazz := some c, oldVtable := cls.vtable, handlerClass := some h,
               handlerOffset := env.dvmFindFieldOffset (some c),
               vtable := some s.vtables.length },
    classes := s.classes.set c { cls with vtable := some s.vtables.length },
    vtables := s.vtables ++ [(List.range' s.methods.length orig.length).map some],
    methods := s.methods ++ orig.map (fun x => some (patchedMethod env e (some c) x)),
    allocCount := s.allocCount + 2 }

/-! ## Reading of the lookup in the specification -/

/-- Spec reading: `r` is the first row of `table` whose class name is `d`, or
`none` when no row has that name. -/
def IsFirstEntry (table : List ClassHandler) (d : String) (r : Option Nat) : Prop :=
  match r with
  | none => ∀ e ∈ table, e.name ≠ d
  | some i => (∃ e, table[i]? = some e ∧ e.name = d) ∧
      ∀ j : Nat, j < i → ∀ e, table[j]? = some e → e.name ≠ d

/-- Spec reading: `r` is the row matching the nearest class of the chain with
descriptors `descs` (the class itself first), or `none` when no class matches. -/
def IsNearestEntry (table : List ClassHandler) (descs : List String) (r : Option Nat) : Prop :=
  match r with
  | none => ∀ d ∈ descs, ∀ e ∈ table, e.name ≠ d
  | some i => ∃ (k : Nat) (d : String), descs[k]? = some d ∧ IsFirstEntry table d (some i) ∧
      ∀ j : Nat, j < k → ∀ d', descs[j]? = some d' → ∀ e ∈ table, e.name ≠ d'

/-- The chain `clazz, clazz->super, ...` up to the class whose `super` is `NULL`:
the addresses visited and the class found at each. -/
def IsSuperChain (classes : List ClassObject) : Option Nat → List (Nat × ClassObject) → Prop
  | none, [] => True
  | some a, x :: rest => x.1 = a ∧ classes[a]? = some x.2 ∧ IsSuperChain classes x.2.super rest
  | none, _ :: _ => False
  | some _, [] => False

/-! ## A small heap to run the code on -/

/-- An engine that finds the handler class at class address 3, the field `h` at
offset 8, and whose handler methods keep the name and slot of the original and
hold its address in `insns`. -/
def demoEngine : Engine where
  dvmFindSystemClass := fun n =>
    if n = "Landroid/app/ActivityInvocationHandler;" then some 3 else none
  dvmFindFieldOffset := fun _ => 8
  createHandlerMethod := fun clazz src m =>
    { name := m.name, clazz := clazz, methodIndex := m.methodIndex, shorty := m.shorty,
      protoIdx := m.protoIdx, accessFlags := 0x111, nativeFunc := some 77,
      insns := match src with
        | some a => InsnsPtr.method a
        | none => InsnsPtr.null }

/-- An engine like `demoEngine` that cannot find the handler class. -/
def noHandlerEngine : Engine :=
  { demoEngine with dvmFindSystemClass := fun _ => none }

/-- An engine like `demoEngine` that cannot find the field `h`. -/
def noFieldEngine : Engine :=
  { demoEngine with dvmFindFieldOffset := fun _ => -1 }

/-- The class `android.app.Activity` of `demoState`. -/
def demoActivity : ClassObject :=
  { descriptor := "Landroid/app/Activity;", super := some 0, vtableCount := 3, vtable := some 1 }

/-- The subclass `com.example.Main` of `android.app.Activity` in `demoState`. -/
def demoMain : ClassObject :=
  { descriptor := "Lcom/example/Main;", super := some 1, vtableCount := 3, vtable := some 1 }

/-- The methods in the dispatch table of `demoActivity`: address and content. -/
def demoVtable : List (Nat × Method) :=
  [ (0, { name := "hashCode", clazz := some 0, methodIndex := 0, insns := .code 0 }),
    (1, { name := "onPause", clazz := some 1, methodIndex := 1, insns := .code 1 }),
    (2, { name := "onResume", clazz := some 1, methodIndex := 2, insns := .code 2 }) ]

/-- A heap with `Object`, `Activity`, a subclass of `Activity`, the handler class
and `Proxy`; `Activity` has the dispatch table `[hashCode, onPause, onResume]`,
and the bytecode of these three methods is at the code addresses 0, 1 and 2.
Object 0 is an `Activity`, object 1 a `Main`, object 2 an `Object`, object 3 a
handler. -/
def demoState : State where
  classHandlers := classHandlers
  classes :=
    [ { descriptor := "Ljava/lang/Object;", vtableCount := 1, vtable := some 0 },
      demoActivity,
      demoMain,
      { descriptor := "Landroid/app/ActivityInvocationHandler;", super := some 0,
        vtableCount := 1, vtable := some 0 },
      { descriptor := "Ljava/lang/reflect/Proxy;", super := some 0, vtableCount := 1,
        vtable := some 0 } ]
  vtables := [ [some 0], [some 0, some 1, some 2] ]
  methods := demoVtable.map fun x => some x.2
  code :=
    [ { name := "", accessFlags := 0x12, registersSize := 1, insns := .code 7 },
      { name := "", accessFlags := 0x0e, registersSize := 2, insns := .null },
      { name := "", accessFlags := 0x6f, registersSize := 3, outsSize := 1, insns := .code 1 } ]
  objects :=
    [ { clazz := some 1, fields := [(8, some 3)] },
      { clazz := some 2, fields := [(8, some 3)] },
      { clazz := some 0, fields := [] },
      { clazz := some 3, fields := [] } ]
  allocCount := 0
  classJavaLangReflectProxy := some 4
  offJavaLangReflectProxy_h := 8

/-- The heap `demoState` after `Activity` has been patched with `demoEngine`. -/
def demoPatched : State :=
  patchedState demoEngine demoState 1 demoActivity 0 activityHandler 3 demoVtable

/-! ## The lookup -/

theorem scanTable_none (t : List ClassHandler) (d : String) (k : Nat) :
    scanTable t d k = none ↔ ∀ e ∈ t, e.name ≠ d := by
  induction t generalizing k with
  | nil => simp [scanTable]
  | cons p rest ih =>
    by_cases h : d = p.name
    · simp [scanTable, h]
    · simp [scanTable, h, ih, Ne.symm h]

theorem scanTable_some (t : List ClassHandler) (d : String) (k i : Nat) :
    scanTable t d k = some i ↔
      k ≤ i ∧ (∃ e, t[i - k]? = some e ∧ e.name = d) ∧
        ∀ j, j < i - k → ∀ e, t[j]? = some e → e.name ≠ d := by
  induction t generalizing k with
  | nil => simp [scanTable]
  | cons p rest ih =>
    by_cases h : d = p.name
    · simp only [scanTable, h, if_true, Option.some.injEq]
      constructor
      · rintro rfl
        simp
      · rintro ⟨hk, ⟨e, he, hn⟩, hall⟩
        by_contra hne
        have hpos : 0 < i - k := by omega
        exact hall 0 hpos p (by simp) rfl
    · simp only [scanTable, h, if_false, ih]
      constructor
      · rintro ⟨hk, ⟨e, he, hn⟩, hall⟩
        refine ⟨by omega, ⟨e, ?_, hn⟩, ?_⟩
        · have : i - k = (i - (k + 1)) + 1 := by omega
          rw [this]; simpa using he
        · intro j hj e' he'
          cases j with
          | zero => simp at he'; subst he'; exact Ne.symm h
          | succ j => exact hall j (by omega) e' (by simpa using he')
      · rintro ⟨hk, ⟨e, he, hn⟩, hall⟩
        have hik : i ≠ k := by
          rintro rfl
          simp at he; subst he; exact h hn.symm
        refine ⟨by omega, ⟨e, ?_, hn⟩, ?_⟩
        · have : i - k = (i - (k + 1)) + 1 := by omega
          rw [this] at he; simpa using he
        · intro j hj e' he'
          exact hall (j + 1) (by omega) e' (by simpa using he')

theorem scanTable_isFirstEntry (t : List ClassHandler) (d : String) :
    IsFirstEntry t d (scanTable t d 0) := by
  cases hr : scanTable t d 0 with
  | none => exact (scanTable_none t d 0).1 hr
  | some i => simpa using ((scanTable_some t d 0 i).1 hr).2

theorem isFirstEntry_unique (t : List ClassHandler) (d : String) (r : Option Nat)
    (h : IsFirstEntry t d r) : r = scanTable t d 0 := by
  cases r with
  | none => exact ((scanTable_none t d 0).2 h).symm
  | some i =>
    symm
    rw [scanTable_some]
    simpa using h

theorem isSuperChain_unique (classes : List ClassObject) (p : Option Nat)
    (l₁ l₂ : List (Nat × ClassObject)) (h₁ : IsSuperChain classes p l₁)
    (h₂ : IsSuperChain classes p l₂) : l₁ = l₂ := by
  induction l₁ generalizing p l₂ with
  | nil =>
    cases p with
    | none => cases l₂ with
      | nil => rfl
      | cons y r => simp [IsSuperChain] at h₂
    | some a => simp [IsSuperChain] at h₁
  | cons x rest ih =>
    cases p with
    | none => simp [IsSuperChain] at h₁
    | some a =>
      cases l₂ with
      | nil => simp [IsSuperChain] at h₂
      | cons y r =>
        obtain ⟨hx, hxc, hrest⟩ := h₁
        obtain ⟨hy, hyc, hr⟩ := h₂
        have hc : x.2 = y.2 := by
          rw [hxc] at hyc; exact Option.some.inj hyc
        have hxy : x = y := Prod.ext (hx.trans hy.symm) hc
        subst hxy
        rw [ih _ r hrest hr]

theorem isSuperChain_suffix (classes : List ClassObject) (p : Option Nat)
    (l : List (Nat × ClassObject)) (h : IsSuperChain classes p l) :
    ∀ x ∈ l, ∃ l', IsSuperChain classes (some x.1) l' ∧ l'.length ≤ l.length := by
  induction l generalizing p with
  | nil => simp
  | cons y rest ih =>
    cases p with
    | none => simp [IsSuperChain] at h
    | some a =>
      obtain ⟨hy, hyc, hrest⟩ := h
      intro x hx
      rcases List.mem_cons.1 hx with rfl | hx
      · exact ⟨x :: rest, ⟨rfl, hy ▸ hyc, hrest⟩, le_refl _⟩
      · obtain ⟨l', hl', hlen⟩ := ih _ hrest x hx
        exact ⟨l', hl', by simp; omega⟩

theorem isSuperChain_nodup (classes : List ClassObject) (p : Option Nat)
    (l : List (Nat × ClassObject)) (h : IsSuperChain classes p l) :
    (l.map Prod.fst).Nodup := by
  induction l generalizing p with
  | nil => simp
  | cons y rest ih =>
    cases p with
    | none => simp [IsSuperChain] at h
    | some a =>
      have h' := h
      obtain ⟨hy, hyc, hrest⟩ := h
      rw [List.map_cons, List.nodup_cons]
      refine ⟨?_, ih _ hrest⟩
      intro hmem
      obtain ⟨z, hz, hzy⟩ := List.mem_map.1 hmem
      obtain ⟨l', hl', hlen⟩ := isSuperChain_suffix classes _ rest hrest z hz
      rw [hzy, hy] at hl'
      have := isSuperChain_unique classes _ _ _ hl' h'
      subst this
      simp at hlen

theorem isSuperChain_lt (classes : List ClassObject) (p : Option Nat)
    (l : List (Nat × ClassObject)) (h : IsSuperChain classes p l) :
    ∀ a ∈ l.map Prod.fst, a < classes.length := by
  induction l generalizing p with
  | nil => simp
  | cons y rest ih =>
    cases p with
    | none => simp [IsSuperChain] at h
    | some a =>
      obtain ⟨hy, hyc, hrest⟩ := h
      intro b hb
      rw [List.map_cons] at hb
      rcases List.mem_cons.1 hb with rfl | hb
      · rw [hy]
        by_contra hlt
        rw [List.getElem?_eq_none (by omega)] at hyc
        cases hyc
      · exact ih _ hrest b hb

/-- A chain that ends in `NULL` visits no class twice, so it is no longer than
the heap of classes. -/
theorem isSuperChain_length_le (classes : List ClassObject) (p : Option Nat)
    (l : List (Nat × ClassObject)) (h : IsSuperChain classes p l) :
    l.length ≤ classes.length := by
  have hsub : l.map Prod.fst ⊆ List.range classes.length := by
    intro a ha
    exact List.mem_range.2 (isSuperChain_lt classes p l h a ha)
  have := ((isSuperChain_nodup classes p l h).subperm hsub).length_le
  simpa using this

theorem findClassHandlerLoop_chain (table : List ClassHandler) (classes : List ClassObject)
    (p : Option Nat) (l : List (Nat × ClassObject)) (fuel : Nat)
    (h : IsSuperChain classes p l) (hf : l.length ≤ fuel) :
    ∃ r, findClassHandlerLoop table classes true fuel p = .ok r ∧
      IsNearestEntry table (l.map fun x => x.2.descriptor) r := by
  induction l generalizing p fuel with
  | nil =>
    cases p with
    | none => exact ⟨none, by cases fuel <;> rfl, by simp [IsNearestEntry]⟩
    | some a => simp [IsSuperChain] at h
  | cons y rest ih =>
    cases p with
    | none => simp [IsSuperChain] at h
    | some a =>
      obtain ⟨hy, hyc, hrest⟩ := h
      cases fuel with
      | zero => simp at hf
      | succ fuel =>
        cases hs : scanTable table y.2.descriptor 0 with
        | some i =>
          refine ⟨some i, by simp [findClassHandlerLoop, hyc, hs], ?_⟩
          refine ⟨0, y.2.descriptor, by simp, ?_, by simp⟩
          rw [← hs]; exact scanTable_isFirstEntry _ _
        | none =>
          obtain ⟨r, hr, hn⟩ := ih y.2.super fuel hrest (by simpa using hf)
          refine ⟨r, by simp [findClassHandlerLoop, hyc, hs, hr], ?_⟩
          have hnone := (scanTable_none table y.2.descriptor 0).1 hs
          cases r with
          | none =>
            intro d hd e he
            rw [List.map_cons] at hd
            rcases List.mem_cons.1 hd with rfl | hd
            · exact hnone e he
            · exact hn d hd e he
          | some i =>
            obtain ⟨k, d, hk, hfirst, hall⟩ := hn
            refine ⟨k + 1, d, by simpa using hk, hfirst, ?_⟩
            intro j hj d' hd' e he
            cases j with
            | zero =>
              simp at hd'; subst hd'; exact hnone e he
            | succ j => exact hall j (by omega) d' (by simpa using hd') e he

theorem findClassHandler_nonrec (s : State) (c : Nat) (cls : ClassObject)
    (hcls : s.classes[c]? = some cls) :
    findClassHandler s (some c) false = .ok (scanTable s.classHandlers cls.descriptor 0) := by
  have hlt : c < s.classes.length := by
    by_contra hlt
    rw [List.getElem?_eq_none (by omega)] at hcls
    cases hcls
  obtain ⟨n, hn⟩ : ∃ n, s.classes.length = n + 1 := ⟨s.classes.length - 1, by omega⟩
  unfold findClassHandler
  rw [hn]
  cases hs : scanTable s.classHandlers cls.descriptor 0 with
  | some i => simp [findClassHandlerLoop, hcls, hs]
  | none => cases n <;> simp [findClassHandlerLoop, hcls, hs]

/-- C2: for a class `c` of the heap and any table, the non-recursive
`findClassHandler` returns the first row whose name is the descriptor of `c`, or
`NULL` when there is none; along a `super` chain that ends in `NULL` the
recursive one returns the row matching the nearest class of the chain, or `NULL`
when no class of the chain matches; and when `c` has no row but its superclass
has row `i`, the recursive lookup returns row `i` and the non-recursive `NULL`. -/
theorem findClassHandler_lookup (s : State) (c : Nat) (cls : ClassObject)
    (hcls : s.classes[c]? = some cls) :
    (∃ r, findClassHandler s (some c) false = .ok r ∧
        IsFirstEntry s.classHandlers cls.descriptor r) ∧
    (∀ chain, IsSuperChain s.classes (some c) chain →
      ∃ r, findClassHandler s (some c) true = .ok r ∧
        IsNearestEntry s.classHandlers (chain.map fun x => x.2.descriptor) r) ∧
    (∀ b clsB i, cls.super = some b → s.classes[b]? = some clsB →
      IsFirstEntry s.classHandlers cls.descriptor none →
      IsFirstEntry s.classHandlers clsB.descriptor (some i) →
      findClassHandler s (some c) true = .ok (some i) ∧
        findClassHandler s (some c) false = .ok none) := by
  refine ⟨⟨_, findClassHandler_nonrec s c cls hcls, scanTable_isFirstEntry _ _⟩, ?_, ?_⟩
  · intro chain hchain
    exact findClassHandlerLoop_chain s.classHandlers s.classes (some c) chain s.classes.length
      hchain (isSuperChain_length_le _ _ _ hchain)
  · intro b clsB i hsup hb hnone hsome
    have h1 := (isFirstEntry_unique _ _ _ hnone).symm
    have h2 := (isFirstEntry_unique _ _ _ hsome).symm
    refine ⟨?_, by rw [findClassHandler_nonrec s c cls hcls, h1]⟩
    have hne : c ≠ b := by
      rintro rfl
      rw [hcls] at hb
      cases hb
      rw [h1] at h2
      cases h2
    have hc : c < s.classes.length := by
      by_contra hlt
      rw [List.getElem?_eq_none (by omega)] at hcls
      cases hcls
    have hb' : b < s.classes.length := by
      by_contra hlt
      rw [List.getElem?_eq_none (by omega)] at hb
      cases hb
    obtain ⟨n, hn⟩ : ∃ n, s.classes.length = n + 2 := ⟨s.classes.length - 2, by omega⟩
    unfold findClassHandler
    rw [hn]
    simp [findClassHandlerLoop, hcls, h1, hsup, hb, h2]

/-- Witness of C2 on `demoState`: `Lcom/example/Main;` has no row, its superclass
`Landroid/app/Activity;` has row 0. -/
theorem findClassHandler_lookup_witness :
    findClassHandler demoState (some 2) true = .ok (some 0) ∧
      findClassHandler demoState (some 2) false = .ok none :=
  (findClassHandler_lookup demoState 2 demoMain rfl).2.2 1 demoActivity 0 rfl rfl
    (by simp [IsFirstEntry, demoState, classHandlers, demoMain])
    (by simp [IsFirstEntry, demoState, classHandlers, demoActivity])

/-! ## Patching -/

theorem lt_of_getElem?_eq_some {α : Type} {l : List α} {a : Nat} {x : α}
    (h : l[a]? = some x) : a < l.length := by
  by_contra hlt
  rw [List.getElem?_eq_none (by omega)] at h
  cases h

theorem getElem?_append_of_eq_some {α : Type} {l : List α} (l' : List α) {a : Nat} {x : α}
    (h : l[a]? = some x) : (l ++ l')[a]? = some x := by
  rw [List.getElem?_append_left (lt_of_getElem?_eq_some h), h]

theorem set_append_length {α : Type} (l₁ l₂ : List α) (a b : α) :
    (l₁ ++ a :: l₂).set l₁.length b = l₁ ++ b :: l₂ := by
  induction l₁ with
  | nil => rfl
  | cons x l ih => simp [ih]

theorem storeSlot_fresh (st : State) (tab : List (List (Option Nat)))
    (A B : List (Option Nat)) (a val : Option Nat) (i : Nat) (hi : i = A.length)
    (h : st.vtables = tab ++ [A ++ a :: B]) :
    storeSlot st (some tab.length) i val = .ok { st with vtables := tab ++ [A ++ val :: B] } := by
  subst hi
  have h1 : st.vtables[tab.length]? = some (A ++ a :: B) := by
    rw [h, List.getElem?_append_right (le_refl _)]; simp
  simp only [storeSlot, h1]
  rw [if_pos (by simp)]
  congr 2
  rw [h, set_append_length A B a val]
  exact set_append_length tab [] _ _

theorem loadSlot_fresh (st : State) (tab : List (List (Option Nat)))
    (A B : List (Option Nat)) (a : Option Nat) (i : Nat) (hi : i = A.length)
    (h : st.vtables = tab ++ [A ++ a :: B]) :
    loadSlot st (some tab.length) i = .ok a := by
  subst hi
  have h1 : st.vtables[tab.length]? = some (A ++ a :: B) := by
    rw [h, List.getElem?_append_right (le_refl _)]; simp
  have h2 : (A ++ a :: B)[A.length]? = some a := by
    rw [List.getElem?_append_right (le_refl _)]; simp
  simp only [loadSlot, h1, h2]

theorem storeMethod_fresh (st : State) (old A B : List (Option Method)) (a val : Method)
    (i : Nat) (hi : i = A.length) (h : st.methods = old ++ (A ++ some a :: B)) :
    storeMethod st (some (old.length + i)) val =
      .ok { st with methods := old ++ (A ++ some val :: B) } := by
  subst hi
  have h1 : st.methods[old.length + A.length]? = some (some a) := by
    rw [h, List.getElem?_append_right (by omega)]
    rw [show old.length + A.length - old.length = A.length by omega]
    rw [List.getElem?_append_right (le_refl _)]; simp
  simp only [storeMethod, h1]
  congr 2
  rw [h, ← List.append_assoc, ← List.length_append, set_append_length, List.append_assoc]

theorem interceptLoop_run (env : Engine) (p : ClassHandler) (c : Nat) (cls : ClassObject)
    (v : Nat) (b : State) (hcls : b.classes[c]? = some cls) (hv : cls.vtable = some v)
    (todo done : List (Nat × Method))
    (harr : b.vtables[v]? = some ((done ++ todo).map fun x => some x.1))
    (hlive : ∀ x ∈ todo, b.methods[x.1]? = some (some x.2)) :
    interceptLoop env p (some c) b.vtables.length b.methods.length todo.length done.length
      { b with
        vtables := b.vtables ++
          [(List.range' b.methods.length done.length).map some ++
            List.replicate todo.length none],
        methods := b.methods ++
          (done.map (fun x => some (patchedMethod env p (some c) x)) ++
            List.replicate todo.length (some Method.zero)) } =
    .ok { b with
        vtables := b.vtables ++ [(List.range' b.methods.length (done ++ todo).length).map some],
        methods := b.methods ++
          (done ++ todo).map (fun x => some (patchedMethod env p (some c) x)) } := by
  induction todo generalizing done with
  | nil => simp [interceptLoop]
  | cons x rest ih =>
    have hx := hlive x (List.mem_cons_self _ _)
    have hvlt := lt_of_getElem?_eq_some harr
    have hmlt := lt_of_getElem?_eq_some hx
    have ih' := ih (done ++ [x]) (by simpa using harr)
      (fun y hy => hlive y (List.mem_cons_of_mem _ hy))
    simp only [List.append_assoc, List.singleton_append, List.length_append, List.length_singleton,
      List.map_append, List.map_cons, List.map_nil, List.range'_concat, one_mul] at ih'
    have hslot : ((done ++ x :: rest).map fun x => some x.1)[done.length]? = some (some x.1) := by
      rw [List.map_append, List.getElem?_append_right (by simp)]; simp
    have hlen1 : done.length = ((List.range' b.methods.length done.length).map some).length := by
      simp
    have hlen2 : done.length =
        (done.map (fun x => some (patchedMethod env p (some c) x))).length := by
      simp
    rw [List.length_cons, interceptLoop]
    simp only [List.replicate_succ]
    have hload : ∀ st : State, st.classes = b.classes →
        (∃ V, st.vtables = b.vtables ++ V) → (∃ M, st.methods = b.methods ++ M) →
        loadClass st (some c) = .ok cls ∧ loadSlot st cls.vtable done.length = .ok (some x.1) ∧
          loadMethod st (some x.1) = .ok x.2 := by
      rintro st hc ⟨V, hV⟩ ⟨M, hM⟩
      have hvt : st.vtables[v]? = some ((done ++ x :: rest).map fun x => some x.1) := by
        rw [hV]; exact getElem?_append_of_eq_some _ harr
      have hmt : st.methods[x.1]? = some (some x.2) := by
        rw [hM]; exact getElem?_append_of_eq_some _ hx
      simp only [loadClass, hc, hcls, loadSlot, hv, hvt, hslot, loadMethod, hmt, and_self]
    obtain ⟨hl1, hl2, hl3⟩ := hload
      { b with
        vtables := b.vtables ++
          [(List.range' b.methods.length done.length).map some ++
            none :: List.replicate rest.length none],
        methods := b.methods ++
          (done.map (fun x => some (patchedMethod env p (some c) x)) ++
            some Method.zero :: List.replicate rest.length (some Method.zero)) }
      rfl ⟨_, rfl⟩ ⟨_, rfl⟩
    simp only [bind, Except.bind, hl1, hl2, hl3]
    by_cases hn : needInterceptMethod p x.2 = true
    · rw [if_pos hn]
      rw [storeSlot_fresh _ b.vtables _ _ none (some (b.methods.length + done.length)) _ hlen1 rfl]
      simp only []
      rw [loadSlot_fresh _ b.vtables _ _ (some (b.methods.length + done.length)) _ hlen1 rfl]
      obtain ⟨hk1, hk2, hk3⟩ := hload
        { b with
          vtables := b.vtables ++
            [(List.range' b.methods.length done.length).map some ++
              some (b.methods.length + done.length) :: List.replicate rest.length none],
          methods := b.methods ++
            (done.map (fun x => some (patchedMethod env p (some c) x)) ++
              some Method.zero :: List.replicate rest.length (some Method.zero)) }
        rfl ⟨_, rfl⟩ ⟨_, rfl⟩
      simp only [hk1, hk2, hk3]
      rw [storeMethod_fresh _ b.methods _ _ Method.zero _ _ hlen2 rfl]
      simp only []
      refine Eq.trans ?_ (Eq.trans ih' ?_)
      · simp [patchedMethod, hn]
      · simp
    · rw [if_neg hn]
      rw [storeMethod_fresh _ b.methods _ _ Method.zero _ _ hlen2 rfl]
      simp only []
      rw [storeSlot_fresh _ b.vtables _ _ none (some (b.methods.length + done.length)) _ hlen1 rfl]
      simp only []
      refine Eq.trans ?_ (Eq.trans ih' ?_)
      · simp [patchedMethod, hn]
      · simp

theorem patchedMethod_congr (env : Engine) (p q : ClassHandler) (clazz : Option Nat)
    (x : Nat × Method) (h : p.methodNames = q.methodNames) :
    patchedMethod env p clazz x = patchedMethod env q clazz x := by
  simp [patchedMethod, needInterceptMethod, h]

theorem dvmInterceptClass_patched (env : Engine) (s : State) (c : Nat) (cls : ClassObject)
    (i : Nat) (e : ClassHandler) (h v : Nat) (orig : List (Nat × Method))
    (hcls : s.classes[c]? = some cls)
    (hfind : findClassHandler s (some c) false = .ok (some i))
    (he : s.classHandlers[i]? = some e) (hunres : e.handlerClass = none)
    (hres : env.dvmFindSystemClass e.handlerName = some h)
    (hv : cls.vtable = some v) (harr : s.vtables[v]? = some (orig.map fun x => some x.1))
    (hcount : cls.vtableCount = orig.length)
    (hlive : ∀ x ∈ orig, s.methods[x.1]? = some (some x.2)) :
    dvmInterceptClass env s (some c) = .ok (some c, patchedState env s c cls i e h orig) := by
  have hil := lt_of_getElem?_eq_some he
  have hcl := lt_of_getElem?_eq_some hcls
  have hrun := interceptLoop_run env
    { e with clazz := some c, oldVtable := cls.vtable, handlerClass := some h,
             handlerOffset := env.dvmFindFieldOffset (some c) }
    c cls v
    { s with
      classHandlers := s.classHandlers.set i
        { e with clazz := some c, oldVtable := cls.vtable, handlerClass := some h,
                 handlerOffset := env.dvmFindFieldOffset (some c) },
      allocCount := s.allocCount + 1 + 1 }
    hcls hv orig [] harr hlive
  simp only [List.length_nil, List.range'_zero, List.map_nil, List.nil_append] at hrun
  simp only [dvmInterceptClass, hfind, bind, Except.bind, loadHandler, he, hunres,
    initClassHandler, loadClass, hcls, hres, storeHandler, allocSlots, allocMethods, hcount,
    List.getElem?_set_self hil]
  simp [hcls, List.getElem?_set_self hil, hcount, hrun, storeClassVtable, patchedState,
    patchedMethod, needInterceptMethod]

theorem scanNames_eq_true (names : List String) (n : String) :
    scanNames names n = true ↔ n ∈ names := by
  induction names with
  | nil => simp [scanNames]
  | cons a rest ih =>
    by_cases h : n = a
    · simp [scanNames, h]
    · simp [scanNames, h, ih]

theorem patchedMethod_eq (env : Engine) (p : ClassHandler) (clazz : Option Nat)
    (x : Nat × Method) :
    patchedMethod env p clazz x =
      if x.2.name ∈ p.methodNames then env.createHandlerMethod clazz (some x.1) x.2 else x.2 := by
  unfold patchedMethod needInterceptMethod
  by_cases h : x.2.name ∈ p.methodNames
  · rw [if_pos h, if_pos ((scanNames_eq_true _ _).2 h)]
  · rw [if_neg h, if_neg (fun h' => h ((scanNames_eq_true _ _).1 h'))]

/-- C1: patching a registered, not yet patched class whose handler class resolves
installs a dispatch table with as many slots as the original one; slot `j` holds
a fresh descriptor which is the handler method created from the original
descriptor of slot `j` when the name of that descriptor is in the row's list of
method names, and a copy of the whole original descriptor otherwise. -/
theorem dvmInterceptClass_slots (env : Engine) (s : State) (c : Nat) (cls : ClassObject)
    (i : Nat) (e : ClassHandler) (h v : Nat) (orig : List (Nat × Method))
    (hcls : s.classes[c]? = some cls)
    (hfind : findClassHandler s (some c) false = .ok (some i))
    (he : s.classHandlers[i]? = some e) (hunres : e.handlerClass = none)
    (hres : env.dvmFindSystemClass e.handlerName = some h)
    (hv : cls.vtable = some v) (harr : s.vtables[v]? = some (orig.map fun x => some x.1))
    (hcount : cls.vtableCount = orig.length)
    (hlive : ∀ x ∈ orig, s.methods[x.1]? = some (some x.2)) :
    ∃ s' newV arr',
      dvmInterceptClass env s (some c) = .ok (some c, s') ∧
      loadClass s' (some c) = .ok { cls with vtable := some newV } ∧
      (∃ e', loadHandler s' (some i) = .ok e' ∧ e'.vtable = some newV ∧
        e'.oldVtable = some v) ∧
      s'.vtables[newV]? = some arr' ∧ arr'.length = orig.length ∧
      ∀ j x, orig[j]? = some x →
        ∃ m', loadSlot s' (some newV) j = .ok (some m') ∧ m' ≠ x.1 ∧
          loadMethod s' (some x.1) = .ok x.2 ∧
          loadMethod s' (some m') = .ok
            (if x.2.name ∈ e.methodNames then env.createHandlerMethod (some c) (some x.1) x.2
              else x.2) := by
  have hil := lt_of_getElem?_eq_some he
  have hcl := lt_of_getElem?_eq_some hcls
  have hnew : (patchedState env s c cls i e h orig).vtables[s.vtables.length]? =
      some ((List.range' s.methods.length orig.length).map some) := by
    simp [patchedState]
  refine ⟨patchedState env s c cls i e h orig, s.vtables.length,
    (List.range' s.methods.length orig.length).map some,
    dvmInterceptClass_patched env s c cls i e h v orig hcls hfind he hunres hres hv harr
      hcount hlive, ?_, ?_, hnew, by simp, ?_⟩
  · simp [loadClass, patchedState, List.getElem?_set_self hcl]
  · refine ⟨{ e with clazz := some c, oldVtable := cls.vtable, handlerClass := some h,
                     handlerOffset := env.dvmFindFieldOffset (some c),
                     vtable := some s.vtables.length }, ?_, rfl, hv⟩
    simp [loadHandler, patchedState, List.getElem?_set_self hil]
  · intro j x hx
    have hj := lt_of_getElem?_eq_some hx
    have hxl := lt_of_getElem?_eq_some (hlive x (List.getElem?_mem hx))
    refine ⟨s.methods.length + j, ?_, by omega, ?_, ?_⟩
    · simp [loadSlot, hnew, hj, List.getElem?_range' _ _ hj]
    · have : (patchedState env s c cls i e h orig).methods[x.1]? = some (some x.2) :=
        getElem?_append_of_eq_some _ (hlive x (List.getElem?_mem hx))
      simp [loadMethod, this]
    · have : (patchedState env s c cls i e h orig).methods[s.methods.length + j]? =
          some (some (patchedMethod env e (some c) x)) := by
        simp [patchedState, List.getElem?_append_right, hx]
      simp [loadMethod, this, patchedMethod_eq]

/-- Witness of C1: `Landroid/app/Activity;` of `demoState`, patched with
`demoEngine`. -/
theorem dvmInterceptClass_slots_witness :
    ∃ s' newV arr',
      dvmInterceptClass demoEngine demoState (some 1) = .ok (some 1, s') ∧
      loadClass s' (some 1) = .ok { demoActivity with vtable := some newV } ∧
      (∃ e', loadHandler s' (some 0) = .ok e' ∧ e'.vtable = some newV ∧
        e'.oldVtable = some 1) ∧
      s'.vtables[newV]? = some arr' ∧ arr'.length = demoVtable.length ∧
      ∀ j x, demoVtable[j]? = some x →
        ∃ m', loadSlot s' (some newV) j = .ok (some m') ∧ m' ≠ x.1 ∧
          loadMethod s' (some x.1) = .ok x.2 ∧
          loadMethod s' (some m') = .ok
            (if x.2.name ∈ activityHandler.methodNames then
              demoEngine.createHandlerMethod (some 1) (some x.1) x.2
              else x.2) :=
  dvmInterceptClass_slots demoEngine demoState 1 demoActivity 0 activityHandler 3 1 demoVtable
    rfl rfl rfl rfl rfl rfl rfl rfl (by decide)

theorem bind_eq_ok {ε α β : Type} (x : Except ε α) (f : α → Except ε β) (b : β) :
    (x >>= f) = .ok b ↔ ∃ a, x = .ok a ∧ f a = .ok b := by
  cases x <;> simp [bind, Except.bind]

theorem storeSlot_frame (s s' : State) (t : Option Nat) (i : Nat) (m : Option Nat)
    (h : storeSlot s t i m = .ok s') :
    s'.classHandlers = s.classHandlers ∧ s'.classes = s.classes ∧
      s'.allocCount = s.allocCount := by
  unfold storeSlot at h
  split at h
  · cases h
  · split at h
    · cases h
    · split at h
      · cases h; exact ⟨rfl, rfl, rfl⟩
      · cases h

theorem storeMethod_frame (s s' : State) (m : Option Nat) (v : Method)
    (h : storeMethod s m v = .ok s') :
    s'.classHandlers = s.classHandlers ∧ s'.classes = s.classes ∧
      s'.allocCount = s.allocCount := by
  unfold storeMethod at h
  split at h
  · cases h
  · split at h
    · cases h; exact ⟨rfl, rfl, rfl⟩
    · cases h

theorem interceptLoop_frame (env : Engine) (p : ClassHandler) (clazz : Option Nat)
    (vtable methods n i : Nat) (s s' : State)
    (h : interceptLoop env p clazz vtable methods n i s = .ok s') :
    s'.classHandlers = s.classHandlers ∧ s'.classes = s.classes ∧
      s'.allocCount = s.allocCount := by
  induction n generalizing i s with
  | zero =>
    simp only [interceptLoop] at h
    cases h
    exact ⟨rfl, rfl, rfl⟩
  | succ n ih =>
    simp only [interceptLoop, bind_eq_ok] at h
    obtain ⟨cls, -, src, -, m, -, h⟩ := h
    split at h
    · simp only [bind_eq_ok] at h
      obtain ⟨s1, h1, dst, -, cls1, -, src1, -, srcM, -, s2, h2, h⟩ := h
      obtain ⟨a1, a2, a3⟩ := storeSlot_frame _ _ _ _ _ h1
      obtain ⟨b1, b2, b3⟩ := storeMethod_frame _ _ _ _ h2
      obtain ⟨c1, c2, c3⟩ := ih _ _ h
      exact ⟨c1.trans (b1.trans a1), c2.trans (b2.trans a2), c3.trans (b3.trans a3)⟩
    · simp only [bind_eq_ok] at h
      obtain ⟨s1, h1, s2, h2, h⟩ := h
      obtain ⟨a1, a2, a3⟩ := storeMethod_frame _ _ _ _ h1
      obtain ⟨b1, b2, b3⟩ := storeSlot_frame _ _ _ _ _ h2
      obtain ⟨c1, c2, c3⟩ := ih _ _ h
      exact ⟨c1.trans (b1.trans a1), c2.trans (b2.trans a2), c3.trans (b3.trans a3)⟩

theorem findClassHandler_null (s : State) (r : Bool) :
    findClassHandler s none r = .ok none := by
  unfold findClassHandler
  cases s.classes.length <;> rfl

theorem findClassHandler_dangling (s : State) (c : Nat) (r : Bool) (x : Option Nat)
    (hc : s.classes[c]? = none) : findClassHandler s (some c) r ≠ .ok x := by
  unfold findClassHandler
  cases s.classes.length <;> simp [findClassHandlerLoop, hc]

/-- Every way in which `dvmInterceptClass` returns: the class pointer comes back,
and the memory is untouched, or the row found was unresolved and the handler
class was not found (the row then holds the class and its dispatch table), or
the row found was unresolved and the class has been patched. -/
theorem dvmInterceptClass_outcome (env : Engine) (s : State) (clazz r : Option Nat)
    (s' : State) (h : dvmInterceptClass env s clazz = .ok (r, s')) :
    r = clazz ∧
    (s' = s ∨
      ∃ c cls j e, clazz = some c ∧ s.classes[c]? = some cls ∧
        findClassHandler s clazz false = .ok (some j) ∧
        s.classHandlers[j]? = some e ∧ e.name = cls.descriptor ∧ e.handlerClass = none ∧
        ((env.dvmFindSystemClass e.handlerName = none ∧
            s' = storeHandler s j { e with clazz := some c, oldVtable := cls.vtable }) ∨
          ∃ hc, env.dvmFindSystemClass e.handlerName = some hc ∧
            s'.classHandlers = s.classHandlers.set j
              { e with clazz := some c, oldVtable := cls.vtable, handlerClass := some hc,
                       handlerOffset := env.dvmFindFieldOffset (some c),
                       vtable := some s.vtables.length } ∧
            s'.classes = s.classes.set c { cls with vtable := some s.vtables.length } ∧
            s'.allocCount = s.allocCount + 2)) := by
  cases clazz with
  | none =>
    simp only [dvmInterceptClass, findClassHandler_null, bind, Except.bind] at h
    cases h
    exact ⟨rfl, Or.inl rfl⟩
  | some c =>
    cases hcls : s.classes[c]? with
    | none =>
      exfalso
      simp only [dvmInterceptClass, bind_eq_ok] at h
      obtain ⟨p, hp, -⟩ := h
      exact findClassHandler_dangling s c false p hcls hp
    | some cls =>
      have hfind := findClassHandler_nonrec s c cls hcls
      cases hs : scanTable s.classHandlers cls.descriptor 0 with
      | none =>
        simp only [dvmInterceptClass, hfind, hs, bind, Except.bind] at h
        cases h
        exact ⟨rfl, Or.inl rfl⟩
      | some j =>
        rw [hs] at hfind
        obtain ⟨-, ⟨e, he, hname⟩, -⟩ := (scanTable_some _ _ _ _).1 hs
        simp only [Nat.sub_zero] at he
        have hjl := lt_of_getElem?_eq_some he
        have hcl := lt_of_getElem?_eq_some hcls
        cases hh : e.handlerClass with
        | some x =>
          simp [dvmInterceptClass, hfind, bind, Except.bind, loadHandler, he, hh] at h
          exact ⟨h.1.symm, Or.inl h.2.symm⟩
        | none =>
          cases hres : env.dvmFindSystemClass e.handlerName with
          | none =>
            simp [dvmInterceptClass, hfind, bind, Except.bind, loadHandler, he, hh,
              initClassHandler, loadClass, hcls, hres] at h
            refine ⟨h.1.symm, Or.inr ⟨c, cls, j, e, rfl, hcls, hfind, he, hname, hh,
              Or.inl ⟨hres, ?_⟩⟩⟩
            rw [← h.2, ← hh]
          | some hc =>
            simp only [dvmInterceptClass, hfind, bind, Except.bind, loadHandler, he, hh,
              initClassHandler, loadClass, hcls, hres] at h
            simp [storeHandler, allocSlots, allocMethods, hcls, List.getElem?_set_self hjl] at h
            split at h
            · cases h
            · rename_i s4 hloop
              obtain ⟨f1, f2, f3⟩ := interceptLoop_frame _ _ _ _ _ _ _ _ _ hloop
              simp only at f1 f2 f3
              simp only [storeClassVtable, f2, hcls, f1, List.getElem?_set_self hjl] at h
              simp only [Except.ok.injEq, Prod.mk.injEq] at h
              obtain ⟨h1, h2⟩ := h
              subst h2
              refine ⟨h1.symm, Or.inr ⟨c, cls, j, e, rfl, hcls, hfind, he, hname, hh,
                Or.inr ⟨hc, hres, ?_, rfl, ?_⟩⟩⟩
              · simp
              · simp [f3]

theorem scanTable_set (t : List ClassHandler) (j : Nat) (e e' : ClassHandler) (d : String)
    (k : Nat) (he : t[j]? = some e) (hname : e'.name = e.name) :
    scanTable (t.set j e') d k = scanTable t d k := by
  induction t generalizing j k with
  | nil => simp at he
  | cons p rest ih =>
    cases j with
    | zero =>
      simp only [List.getElem?_cons_zero, Option.some.injEq] at he
      subst he
      simp [scanTable, hname]
    | succ j =>
      simp only [List.getElem?_cons_succ] at he
      simp [scanTable, ih j (k + 1) he]

/-- C7: on a class whose descriptor is the name of no row, `dvmInterceptClass`
returns the class and leaves the whole memory as it was: the dispatch table, the
table of rows and the allocation count. -/
theorem dvmInterceptClass_unregistered (env : Engine) (s : State) (c : Nat) (cls : ClassObject)
    (hcls : s.classes[c]? = some cls)
    (hno : ∀ e ∈ s.classHandlers, e.name ≠ cls.descriptor) :
    dvmInterceptClass env s (some c) = .ok (some c, s) := by
  have hs := (scanTable_none s.classHandlers cls.descriptor 0).2 hno
  simp [dvmInterceptClass, findClassHandler_nonrec s c cls hcls, hs, bind, Except.bind]

/-- Witness of C7: `Ljava/lang/Object;` in `demoState`. -/
theorem dvmInterceptClass_unregistered_witness :
    dvmInterceptClass demoEngine demoState (some 0) = .ok (some 0, demoState) :=
  dvmInterceptClass_unregistered demoEngine demoState 0
    { descriptor := "Ljava/lang/Object;", vtableCount := 1, vtable := some 0 } rfl (by decide)

/-- C3: with the engine answering alike in both calls, a second
`dvmInterceptClass` on the same class right after a first one returns the same
pointer and leaves the memory (dispatch tables, rows, allocation count) as the
first call left it; a first call that faults faults alone. -/
theorem dvmInterceptClass_idempotent (env : Engine) (s : State) (clazz : Option Nat) :
    (dvmInterceptClass env s clazz >>= fun r => dvmInterceptClass env r.2 clazz) =
      dvmInterceptClass env s clazz := by
  cases h : dvmInterceptClass env s clazz with
  | error f => rfl
  | ok rs =>
    obtain ⟨r, s1⟩ := rs
    show dvmInterceptClass env s1 clazz = .ok (r, s1)
    obtain ⟨hr, hcase⟩ := dvmInterceptClass_outcome env s clazz r s1 h
    subst hr
    rcases hcase with rfl | ⟨c, cls, j, e, rfl, hcls, hfind, he, hname, hh, hcase⟩
    · exact h
    · have hjl := lt_of_getElem?_eq_some he
      have hcl := lt_of_getElem?_eq_some hcls
      have hscan : scanTable s.classHandlers cls.descriptor 0 = some j := by
        have := findClassHandler_nonrec s c cls hcls
        rw [hfind] at this
        exact (Except.ok.inj this).symm
      rcases hcase with ⟨hres, rfl⟩ | ⟨hc, hres, ht, hclasses, -⟩
      · have hfind' : findClassHandler
            (storeHandler s j { e with clazz := some c, oldVtable := cls.vtable })
            (some c) false = .ok (some j) := by
          rw [findClassHandler_nonrec _ c cls (by simpa [storeHandler] using hcls)]
          simp only [storeHandler]
          rw [scanTable_set _ _ e { e with clazz := some c, oldVtable := cls.vtable } _ _ he rfl,
            hscan]
        simp only [storeHandler, hh] at hfind' ⊢
        simp [dvmInterceptClass, hfind', bind, Except.bind, loadHandler,
          List.getElem?_set_self hjl, initClassHandler, loadClass, hcls, hres, storeHandler]
      · have hcls1 : s1.classes[c]? = some { cls with vtable := some s.vtables.length } := by
          rw [hclasses, List.getElem?_set_self hcl]
        have hfind' : findClassHandler s1 (some c) false = .ok (some j) := by
          rw [findClassHandler_nonrec _ c _ hcls1, ht]
          exact congrArg Except.ok ((scanTable_set _ _ e
            { e with clazz := some c, oldVtable := cls.vtable, handlerClass := some hc,
                     handlerOffset := env.dvmFindFieldOffset (some c),
                     vtable := some s.vtables.length } _ _ he rfl).trans hscan)
        simp [dvmInterceptClass, hfind', bind, Except.bind, loadHandler, ht,
          List.getElem?_set_self hjl]

/-! ## The resolved fields of a row -/

theorem dvmInterceptClass_resolved_row (env : Engine) (s : State) (clazz r : Option Nat)
    (s' : State) (i : Nat) (e : ClassHandler)
    (h : dvmInterceptClass env s clazz = .ok (r, s'))
    (he : s.classHandlers[i]? = some e) (hres : e.handlerClass ≠ none) :
    s'.classHandlers[i]? = some e := by
  obtain ⟨-, hcase⟩ := dvmInterceptClass_outcome env s clazz r s' h
  rcases hcase with rfl | ⟨c, cls, j, e₀, -, -, -, he₀, -, hh, hcase⟩
  · exact he
  · have hne : j ≠ i := by
      rintro rfl
      rw [he] at he₀
      cases he₀
      exact hres hh
    rcases hcase with ⟨-, rfl⟩ | ⟨hc, -, ht, -, -⟩
    · simp [storeHandler, List.getElem?_set_ne hne, he]
    · rw [ht, List.getElem?_set_ne hne, he]

theorem runPatches_resolved_row (calls : List (Engine × Option Nat)) (s s' : State) (i : Nat)
    (e : ClassHandler) (h : runPatches s calls = .ok s')
    (he : s.classHandlers[i]? = some e) (hres : e.handlerClass ≠ none) :
    s'.classHandlers[i]? = some e := by
  induction calls generalizing s with
  | nil =>
    simp only [runPatches] at h
    cases h
    exact he
  | cons call rest ih =>
    simp only [runPatches, bind_eq_ok] at h
    obtain ⟨⟨r, s1⟩, h1, h2⟩ := h
    exact ih s1 h2 (dvmInterceptClass_resolved_row call.1 s call.2 r s1 i e h1 he hres)

theorem dvmInterceptClass_failed_resolution (env : Engine) (s : State) (c : Nat)
    (cl : ClassObject) (j : Nat) (row : ClassHandler)
    (hcl : s.classes[c]? = some cl) (hfind : findClassHandler s (some c) false = .ok (some j))
    (hrow : s.classHandlers[j]? = some row) (hh : row.handlerClass = none)
    (hres : env.dvmFindSystemClass row.handlerName = none) :
    dvmInterceptClass env s (some c) =
      .ok (some c, storeHandler s j { row with clazz := some c, oldVtable := cl.vtable }) := by
  simp only [dvmInterceptClass, hfind, bind, Except.bind, loadHandler, hrow, hh,
    initClassHandler, loadClass, hcl, hres]
  simp [← hh]

/-- C10, as the code has it: the rows of the compiled-in table have all resolved
fields unset; a call of `dvmInterceptClass` in which the handler class is not
found writes the class and the original dispatch table into the row and leaves
its handler class, handler offset and new dispatch table as they were; and once
the handler class of a row is set, no sequence of later calls changes the row. -/
theorem classHandler_resolved_fields :
    (∀ e ∈ classHandlers, e.clazz = none ∧ e.handlerClass = none ∧ e.handlerOffset = 0 ∧
      e.vtable = none ∧ e.oldVtable = none) ∧
    (∀ (env : Engine) (s : State) (c : Nat) (cl : ClassObject) (j : Nat) (row : ClassHandler),
      s.classes[c]? = some cl → findClassHandler s (some c) false = .ok (some j) →
      s.classHandlers[j]? = some row → row.handlerClass = none →
      env.dvmFindSystemClass row.handlerName = none →
      dvmInterceptClass env s (some c) =
        .ok (some c, storeHandler s j { row with clazz := some c, oldVtable := cl.vtable })) ∧
    (∀ (calls : List (Engine × Option Nat)) (s s' : State) (i : Nat) (e : ClassHandler),
      s.classHandlers[i]? = some e → e.handlerClass ≠ none →
      runPatches s calls = .ok s' → s'.classHandlers[i]? = some e) := by
  refine ⟨by decide, ?_, ?_⟩
  · intro env s c cl j row hcl hfind hrow hh hres
    exact dvmInterceptClass_failed_resolution env s c cl j row hcl hfind hrow hh hres
  · intro calls s s' i e he hres h
    exact runPatches_resolved_row calls s s' i e h he hres

/-- Witness of C10 as amended: after `Activity` has been patched, two more
calls, one of them with an engine that does not find the handler class, leave
the row as it is. -/
theorem classHandler_resolved_fields_witness :
    runPatches demoPatched [(demoEngine, some 1), (noHandlerEngine, some 1)] = .ok demoPatched ∧
      demoPatched.classHandlers[0]? =
        some { activityHandler with
          clazz := some 1, oldVtable := some 1, handlerClass := some 3, handlerOffset := 8,
          vtable := some 2 } :=
  ⟨rfl, classHandler_resolved_fields.2.2 [(demoEngine, some 1), (noHandlerEngine, some 1)]
    demoPatched demoPatched 0 _ rfl (by decide) rfl⟩

/-- Counterexample to C10 as stated: on `demoState`, a first call that does not
find the handler class sets the class and the original dispatch table of the row,
and a second call on the same class sets the handler class, the handler offset
and the new dispatch table: two calls write resolved fields of the one row. -/
theorem resolved_fields_written_by_two_calls :
    demoState.classHandlers = [activityHandler] ∧
    (runPatches demoState [(noHandlerEngine, some 1)]).map (fun s => s.classHandlers) =
      .ok [{ activityHandler with clazz := some 1, oldVtable := some 1 }] ∧
    (runPatches demoState [(noHandlerEngine, some 1), (demoEngine, some 1)]).map
        (fun s => s.classHandlers) =
      .ok [{ activityHandler with
              clazz := some 1, oldVtable := some 1, handlerClass := some 3, handlerOffset := 8,
              vtable := some 2 }] ∧
    activityHandler ≠ { activityHandler with clazz := some 1, oldVtable := some 1 } ∧
    ({ activityHandler with clazz := some 1, oldVtable := some 1 } : ClassHandler) ≠
      { activityHandler with
        clazz := some 1, oldVtable := some 1, handlerClass := some 3, handlerOffset := 8,
        vtable := some 2 } :=
  ⟨rfl, rfl, rfl, by decide, by decide⟩

/-! ## Failures of resolution during a patch -/

/-- When the handler class is not found, `dvmInterceptClass` returns the class
with its dispatch table, every method and the allocation count untouched; only
the row changes. -/
theorem dvmInterceptClass_no_handler_class (env : Engine) (s : State) (c : Nat)
    (cls : ClassObject) (j : Nat) (e : ClassHandler)
    (hcls : s.classes[c]? = some cls)
    (hfind : findClassHandler s (some c) false = .ok (some j))
    (he : s.classHandlers[j]? = some e) (hunres : e.handlerClass = none)
    (hres : env.dvmFindSystemClass e.handlerName = none) :
    ∃ s', dvmInterceptClass env s (some c) = .ok (some c, s') ∧
      s'.classes = s.classes ∧ s'.vtables = s.vtables ∧ s'.methods = s.methods ∧
      s'.allocCount = s.allocCount :=
  ⟨_, dvmInterceptClass_failed_resolution env s c cls j e hcls hfind he hunres hres,
    rfl, rfl, rfl, rfl⟩

/-- C4, the failing input: on `demoState` with an engine that finds the handler
class but reports no field `h` (offset `-1`), `dvmInterceptClass` patches the
class all the same: the class gets the new dispatch table 2 in place of table 1,
slot 2 of it is a handler method for `onResume`, and the row records offset
`-1`. -/
theorem dvmInterceptClass_field_offset_unchecked :
    noFieldEngine.dvmFindSystemClass activityHandler.handlerName = some 3 ∧
    noFieldEngine.dvmFindFieldOffset (some 1) = -1 ∧
    dvmInterceptClass noFieldEngine demoState (some 1) =
      .ok (some 1, patchedState noFieldEngine demoState 1 demoActivity 0 activityHandler 3
        demoVtable) ∧
    (loadClass demoState (some 1)).map (fun c => c.vtable) = .ok (some 1) ∧
    (loadClass (patchedState noFieldEngine demoState 1 demoActivity 0 activityHandler 3
        demoVtable) (some 1)).map (fun c => c.vtable) = .ok (some 2) ∧
    (loadHandler (patchedState noFieldEngine demoState 1 demoActivity 0 activityHandler 3
        demoVtable) (some 0)).map (fun e => e.handlerOffset) = .ok (-1) ∧
    loadSlot (patchedState noFieldEngine demoState 1 demoActivity 0 activityHandler 3
        demoVtable) (some 2) 2 = .ok (some 5) ∧
    loadMethod (patchedState noFieldEngine demoState 1 demoActivity 0 activityHandler 3
        demoVtable) (some 5) =
      .ok (noFieldEngine.createHandlerMethod (some 1) (some 2)
        { name := "onResume", clazz := some 1, methodIndex := 2, insns := .code 2 }) :=
  ⟨rfl, rfl, rfl, rfl, rfl, rfl, rfl, rfl⟩

/-! ## Handler access -/

/-- For an object that is no proxy and whose lookup finds no row,
`dvmGetInvocationHandler` dereferences the `NULL` row. -/
theorem dvmGetInvocationHandler_null_row (s : State) (obj : Option Nat) (o : Object) (c : Nat)
    (oc : ClassObject) (hobj : loadObject s obj = .ok o) (hc : o.clazz = some c)
    (hoc : loadClass s (some c) = .ok oc) (hnp : oc.super ≠ s.classJavaLangReflectProxy)
    (hfind : findClassHandler s (some c) true = .ok none) :
    dvmGetInvocationHandler s obj = .error .nullDeref := by
  simp [dvmGetInvocationHandler, hobj, hc, hoc, hnp, hfind, loadHandler, bind, Except.bind]

/-- For an object that is no proxy and whose lookup finds row `p`,
`dvmGetInvocationHandler` returns what the object holds at the handler offset of
that row. -/
theorem dvmGetInvocationHandler_row (s : State) (obj : Option Nat) (o : Object) (c : Nat)
    (oc : ClassObject) (p : Nat) (e : ClassHandler)
    (hobj : loadObject s obj = .ok o) (hc : o.clazz = some c)
    (hoc : loadClass s (some c) = .ok oc) (hnp : oc.super ≠ s.classJavaLangReflectProxy)
    (hfind : findClassHandler s (some c) true = .ok (some p))
    (he : s.classHandlers[p]? = some e) :
    dvmGetInvocationHandler s obj = dvmGetFieldObject o e.handlerOffset := by
  simp [dvmGetInvocationHandler, hobj, hc, hoc, hnp, hfind, loadHandler, he, bind, Except.bind]

/-- C5, the failing input: object 2 of `demoState` is a plain `Object`, no proxy,
and the recursive lookup of its class finds no row; `dvmGetInvocationHandler`
then reads `p->handlerOffset` through the `NULL` row and faults. -/
theorem dvmGetInvocationHandler_unregistered :
    loadObject demoState (some 2) = .ok { clazz := some 0, fields := [] } ∧
    (loadClass demoState (some 0)).map (fun c => c.super) = .ok none ∧
    demoState.classJavaLangReflectProxy = some 4 ∧
    findClassHandler demoState (some 0) true = .ok none ∧
    dvmGetInvocationHandler demoState (some 2) = .error .nullDeref :=
  ⟨rfl, rfl, rfl, rfl, rfl⟩

/-! ## The call guard -/

theorem findClassHandlerLoop_set_vtable (table : List ClassHandler) (classes : List ClassObject)
    (c : Nat) (cls : ClassObject) (v : Option Nat) (r : Bool) (fuel : Nat) (p : Option Nat)
    (hcls : classes[c]? = some cls) :
    findClassHandlerLoop table (classes.set c { cls with vtable := v }) r fuel p =
      findClassHandlerLoop table classes r fuel p := by
  have hcl := lt_of_getElem?_eq_some hcls
  induction fuel generalizing p with
  | zero => cases p <;> rfl
  | succ fuel ih =>
    cases p with
    | none => rfl
    | some a =>
      by_cases hac : c = a
      · subst hac
        simp only [findClassHandlerLoop, List.getElem?_set_self hcl, hcls]
        split
        · rfl
        · exact ih _
      · simp only [findClassHandlerLoop, List.getElem?_set_ne hac]
        split
        · rfl
        · split
          · rfl
          · exact ih _

theorem findClassHandler_set_vtable (s : State) (c : Nat) (cls : ClassObject) (v : Option Nat)
    (ms : List (Option Method)) (n : Nat) (r : Bool) (p : Option Nat)
    (hcls : s.classes[c]? = some cls) :
    findClassHandler
        { s with classes := s.classes.set c { cls with vtable := v }, methods := ms,
                 allocCount := n } p r =
      findClassHandler s p r := by
  unfold findClassHandler
  simp only [List.length_set]
  exact findClassHandlerLoop_set_vtable _ _ _ _ _ _ _ _ hcls

theorem loadInsns_frame (s : State) (cs : List ClassObject) (ms : List (Option Method))
    (n : Nat) (q : InsnsPtr) (orig : Method) (h : loadInsns s q = .ok orig) :
    loadInsns { s with classes := cs, methods := s.methods ++ ms, allocCount := n } q =
      .ok orig := by
  cases q with
  | null => simp [loadInsns] at h
  | code a => simpa [loadInsns] using h
  | method a =>
    simp only [loadInsns, loadMethod] at h ⊢
    split at h
    · rename_i v hv
      simp only [getElem?_append_of_eq_some _ hv]
      exact h
    · cases h

theorem dvmResetHandlerMethod_reads (s : State) (obj : Option Nat) (o : Object)
    (oc : ClassObject) (p : Nat) (e : ClassHandler) (c : Nat) (cls : ClassObject) (t : Nat)
    (hm orig : Method)
    (hobj : loadObject s obj = .ok o) (hoc : loadClass s o.clazz = .ok oc)
    (hnp : oc.super ≠ s.classJavaLangReflectProxy)
    (hfind : findClassHandler s o.clazz true = .ok (some p))
    (he : s.classHandlers[p]? = some e) (hc : e.clazz = some c)
    (hcls : s.classes[c]? = some cls)
    (ht : s.methods[t]? = some (some hm)) (horig : loadInsns s hm.insns = .ok orig) :
    dvmResetHandlerMethod s obj (some t) =
      .ok (some s.methods.length,
        { s with
          classes := s.classes.set c { cls with vtable := e.oldVtable },
          methods := (s.methods ++ [some hm]).set t (some orig),
          allocCount := s.allocCount + 1 }) := by
  have htl := lt_of_getElem?_eq_some ht
  have ht1 : (s.methods ++ [some Method.zero])[t]? = some (some hm) :=
    getElem?_append_of_eq_some _ ht
  have hn1 : (s.methods ++ [some Method.zero])[s.methods.length]? = some (some Method.zero) := by
    rw [List.getElem?_append_right (le_refl _)]; simp
  have hset : (s.methods ++ [some Method.zero]).set s.methods.length (some hm) =
      s.methods ++ [some hm] := set_append_length _ [] _ _
  have ht2 : (s.methods ++ [some hm])[t]? = some (some hm) := getElem?_append_of_eq_some _ ht
  have ho := loadInsns_frame s (s.classes.set c { cls with vtable := e.oldVtable })
    [some hm] (s.allocCount + 1) hm.insns orig horig
  simp only [dvmResetHandlerMethod, hobj, hoc, hnp, hfind, bind, Except.bind, if_false, malloc,
    loadMethod, ht1, storeMethod, hn1, hset, loadHandler, he, storeClassVtable, hc, hcls, ht2,
    ho]

theorem dvmResetHandlerMethod_run (s : State) (obj : Option Nat) (o : Object) (oc : ClassObject)
    (p : Nat) (e : ClassHandler) (c : Nat) (cls : ClassObject) (t : Nat) (hm : Method) (a : Nat)
    (orig : Method)
    (hobj : loadObject s obj = .ok o) (hoc : loadClass s o.clazz = .ok oc)
    (hnp : oc.super ≠ s.classJavaLangReflectProxy)
    (hfind : findClassHandler s o.clazz true = .ok (some p))
    (he : s.classHandlers[p]? = some e) (hc : e.clazz = some c)
    (hcls : s.classes[c]? = some cls)
    (ht : s.methods[t]? = some (some hm)) (hins : hm.insns = .method a)
    (ha : s.methods[a]? = some (some orig)) :
    dvmResetHandlerMethod s obj (some t) =
      .ok (some s.methods.length,
        { s with
          classes := s.classes.set c { cls with vtable := e.oldVtable },
          methods := (s.methods ++ [some hm]).set t (some orig),
          allocCount := s.allocCount + 1 }) :=
  dvmResetHandlerMethod_reads s obj o oc p e c cls t hm orig hobj hoc hnp hfind he hc hcls ht
    (by simp only [hins, loadInsns, loadMethod, ha])

theorem loadClass_set_vtable (s : State) (c : Nat) (cls : ClassObject) (v : Option Nat)
    (ms : List (Option Method)) (n : Nat) (k : Option Nat) (oc : ClassObject)
    (hcls : s.classes[c]? = some cls) (hoc : loadClass s k = .ok oc) :
    ∃ oc', loadClass { s with classes := s.classes.set c { cls with vtable := v },
                              methods := ms, allocCount := n } k = .ok oc' ∧
      oc'.super = oc.super := by
  have hcl := lt_of_getElem?_eq_some hcls
  cases k with
  | none => simp [loadClass] at hoc
  | some k =>
    by_cases hk : c = k
    · subst hk
      simp only [loadClass, hcls, Except.ok.injEq] at hoc
      subst hoc
      exact ⟨{ cls with vtable := v }, by simp only [loadClass, List.getElem?_set_self hcl], rfl⟩
    · refine ⟨oc, ?_, rfl⟩
      simp only [loadClass, List.getElem?_set_ne hk]
      exact hoc

theorem dvmRestoreHandlerMethod_run (s : State) (obj : Option Nat) (o : Object)
    (oc : ClassObject) (p : Nat) (e : ClassHandler) (c : Nat) (cls : ClassObject) (t : Nat)
    (cur : Method) (tok : Nat) (saved : Method)
    (hobj : loadObject s obj = .ok o) (hoc : loadClass s o.clazz = .ok oc)
    (hnp : oc.super ≠ s.classJavaLangReflectProxy)
    (hfind : findClassHandler s o.clazz true = .ok (some p))
    (he : s.classHandlers[p]? = some e) (hc : e.clazz = some c)
    (hcls : s.classes[c]? = some cls)
    (ht : s.methods[t]? = some (some cur)) (htok : s.methods[tok]? = some (some saved)) :
    dvmRestoreHandlerMethod s obj (some t) (some tok) =
      .ok { s with
          classes := s.classes.set c { cls with vtable := e.vtable },
          methods := (s.methods.set t (some saved)).set tok none } := by
  have htl := lt_of_getElem?_eq_some ht
  have hkl := lt_of_getElem?_eq_some htok
  have hk2 : (s.methods.set t (some saved))[tok]? = some (some saved) := by
    by_cases htk : t = tok
    · subst htk; exact List.getElem?_set_self htl
    · rw [List.getElem?_set_ne htk, htok]
  simp only [dvmRestoreHandlerMethod, hobj, hoc, hnp, hfind, bind, Except.bind, if_false,
    loadMethod, storeMethod, loadHandler, he, storeClassVtable, hc, hcls, htok, ht, free, hk2]

theorem set_eq_self {α : Type} (l : List α) (i : Nat) (x : α) (h : l[i]? = some x) :
    l.set i x = l := by
  induction l generalizing i with
  | nil => rfl
  | cons a rest ih =>
    cases i with
    | zero => simp at h; simp [h]
    | succ i => simp at h; simp [ih i h]

/-- C9: for an object that is no proxy and whose recursive lookup finds row `p`
of a patched class `c`, and a handler method `t` whose `insns` holds the address
of the original method, `dvmResetHandlerMethod` returns a fresh `Method` holding
the content `t` had, sets the dispatch table of the class of the row to the
original table of the row, and overwrites `t` with the content of the original
method; the table of rows stays as it is. -/
theorem dvmResetHandlerMethod_post (s : State) (obj : Option Nat) (o : Object)
    (oc : ClassObject) (p : Nat) (e : ClassHandler) (c : Nat) (cls : ClassObject) (t : Nat)
    (hm : Method) (a : Nat) (orig : Method)
    (hobj : loadObject s obj = .ok o) (hoc : loadClass s o.clazz = .ok oc)
    (hnp : oc.super ≠ s.classJavaLangReflectProxy)
    (hfind : findClassHandler s o.clazz true = .ok (some p))
    (he : s.classHandlers[p]? = some e) (hc : e.clazz = some c)
    (hcls : s.classes[c]? = some cls)
    (ht : s.methods[t]? = some (some hm)) (hins : hm.insns = .method a)
    (ha : s.methods[a]? = some (some orig)) :
    ∃ tok s', dvmResetHandlerMethod s obj (some t) = .ok (some tok, s') ∧
      tok ≠ t ∧ s.methods[tok]? = none ∧
      loadMethod s' (some tok) = .ok hm ∧
      loadClass s' (some c) = .ok { cls with vtable := e.oldVtable } ∧
      loadMethod s' (some t) = .ok orig ∧
      s'.classHandlers = s.classHandlers := by
  have htl := lt_of_getElem?_eq_some ht
  have hcl := lt_of_getElem?_eq_some hcls
  refine ⟨s.methods.length, _,
    dvmResetHandlerMethod_run s obj o oc p e c cls t hm a orig hobj hoc hnp hfind he hc hcls ht
      hins ha, by omega, by simp, ?_, ?_, ?_, rfl⟩
  · have : ((s.methods ++ [some hm]).set t (some orig))[s.methods.length]? = some (some hm) := by
      rw [List.getElem?_set_ne (by omega), List.getElem?_append_right (le_refl _)]; simp
    simp only [loadMethod, this]
  · simp only [loadClass, List.getElem?_set_self hcl]
  · have : ((s.methods ++ [some hm]).set t (some orig))[t]? = some (some orig) :=
      List.getElem?_set_self (by simp; omega)
    simp only [loadMethod, this]

/-- C6: from a memory in which the class of the row has the new dispatch table
of the row, `dvmResetHandlerMethod` followed by `dvmRestoreHandlerMethod` with the
returned `Method` gives back the class object, hence its dispatch table pointer,
and the whole content of the handler method, and leaves the table of rows, the
dispatch tables and every method that existed before as they were. -/
theorem guard_round_trip (s : State) (obj : Option Nat) (o : Object)
    (oc : ClassObject) (p : Nat) (e : ClassHandler) (c : Nat) (cls : ClassObject) (t : Nat)
    (hm : Method) (a : Nat) (orig : Method)
    (hobj : loadObject s obj = .ok o) (hoc : loadClass s o.clazz = .ok oc)
    (hnp : oc.super ≠ s.classJavaLangReflectProxy)
    (hfind : findClassHandler s o.clazz true = .ok (some p))
    (he : s.classHandlers[p]? = some e) (hc : e.clazz = some c)
    (hcls : s.classes[c]? = some cls) (harmed : cls.vtable = e.vtable)
    (ht : s.methods[t]? = some (some hm)) (hins : hm.insns = .method a)
    (ha : s.methods[a]? = some (some orig)) :
    ∃ tok s₁ s₂, dvmResetHandlerMethod s obj (some t) = .ok (tok, s₁) ∧
      dvmRestoreHandlerMethod s₁ obj (some t) tok = .ok s₂ ∧
      loadClass s₂ (some c) = .ok cls ∧
      loadMethod s₂ (some t) = .ok hm ∧
      s₂.classHandlers = s.classHandlers ∧
      s₂.classes = s.classes ∧ s₂.vtables = s.vtables ∧
      ∀ m, m < s.methods.length → s₂.methods[m]? = s.methods[m]? := by
  have htl := lt_of_getElem?_eq_some ht
  have hcl := lt_of_getElem?_eq_some hcls
  have henter := dvmResetHandlerMethod_run s obj o oc p e c cls t hm a orig hobj hoc hnp hfind
    he hc hcls ht hins ha
  obtain ⟨oc', hoc', hsup⟩ := loadClass_set_vtable s c cls e.oldVtable
    ((s.methods ++ [some hm]).set t (some orig)) (s.allocCount + 1) o.clazz oc hcls hoc
  have hleave := dvmRestoreHandlerMethod_run
    { s with
      classes := s.classes.set c { cls with vtable := e.oldVtable },
      methods := (s.methods ++ [some hm]).set t (some orig),
      allocCount := s.allocCount + 1 }
    obj o oc' p e c { cls with vtable := e.oldVtable } t orig s.methods.length hm
    hobj hoc' (by rw [hsup]; exact hnp)
    ((findClassHandler_set_vtable s c cls e.oldVtable _ _ true o.clazz hcls).trans hfind)
    he hc (List.getElem?_set_self hcl)
    (List.getElem?_set_self (by simp; omega))
    (by rw [List.getElem?_set_ne (by omega), List.getElem?_append_right (le_refl _)]; simp)
  have hclasses : (s.classes.set c { cls with vtable := e.oldVtable }).set c
      { cls with vtable := e.vtable } = s.classes := by
    rw [List.set_set, ← harmed]
    exact set_eq_self _ _ _ hcls
  have hmethods : (((s.methods ++ [some hm]).set t (some orig)).set t (some hm)).set
      s.methods.length none = s.methods ++ [none] := by
    rw [List.set_set, set_eq_self _ _ _ (getElem?_append_of_eq_some _ ht)]
    exact set_append_length _ [] _ _
  simp only [hclasses, hmethods] at hleave
  refine ⟨_, _, _, henter, hleave, ?_, ?_, rfl, rfl, rfl, ?_⟩
  · simp only [loadClass, hcls]
  · simp only [loadMethod, getElem?_append_of_eq_some _ ht]
  · intro m hm'
    exact List.getElem?_append_left hm'

/-- When `createHandlerMethod` stores the address of the original method in
`insns`, the handler method that a patch puts in slot `j` refers to the original
method of slot `j`, which is still in place. -/
theorem patchedState_handler_method (env : Engine) (s : State) (c : Nat) (cls : ClassObject)
    (i : Nat) (e : ClassHandler) (h : Nat) (orig : List (Nat × Method)) (j : Nat)
    (x : Nat × Method)
    (hcreate : ∀ cl src m, (env.createHandlerMethod cl (some src) m).insns = .method src)
    (hlive : ∀ x ∈ orig, s.methods[x.1]? = some (some x.2))
    (hx : orig[j]? = some x) (hname : x.2.name ∈ e.methodNames) :
    ∃ hm, (patchedState env s c cls i e h orig).methods[s.methods.length + j]? =
        some (some hm) ∧
      hm.insns = .method x.1 ∧
      (patchedState env s c cls i e h orig).methods[x.1]? = some (some x.2) := by
  refine ⟨env.createHandlerMethod (some c) (some x.1) x.2, ?_, hcreate _ _ _,
    getElem?_append_of_eq_some _ (hlive x (List.getElem?_mem hx))⟩
  simp [patchedState, List.getElem?_append_right, hx, patchedMethod_eq, hname]

/-- Witness of C9: in `demoPatched`, object 1 is a `Main`, whose superclass
`Activity` has row 0; method 5 is the handler method of `onResume`, method 2. -/
theorem dvmResetHandlerMethod_post_witness :
    ∃ tok s', dvmResetHandlerMethod demoPatched (some 1) (some 5) = .ok (some tok, s') ∧
      tok ≠ 5 ∧ demoPatched.methods[tok]? = none ∧
      loadMethod s' (some tok) = .ok
        (demoEngine.createHandlerMethod (some 1) (some 2)
          { name := "onResume", clazz := some 1, methodIndex := 2, insns := .code 2 }) ∧
      loadClass s' (some 1) = .ok { demoActivity with vtable := some 1 } ∧
      loadMethod s' (some 5) = .ok
        { name := "onResume", clazz := some 1, methodIndex := 2, insns := .code 2 } ∧
      s'.classHandlers = demoPatched.classHandlers :=
  dvmResetHandlerMethod_post demoPatched (some 1) { clazz := some 2, fields := [(8, some 3)] }
    demoMain 0
    { activityHandler with
      clazz := some 1, oldVtable := some 1, handlerClass := some 3, handlerOffset := 8,
      vtable := some 2 }
    1 { demoActivity with vtable := some 2 } 5
    (demoEngine.createHandlerMethod (some 1) (some 2)
      { name := "onResume", clazz := some 1, methodIndex := 2, insns := .code 2 })
    2 { name := "onResume", clazz := some 1, methodIndex := 2, insns := .code 2 }
    rfl rfl (by decide) rfl rfl rfl rfl rfl rfl rfl

/-- Witness of C6: the same object and handler method in `demoPatched`. -/
theorem guard_round_trip_witness :
    ∃ tok s₁ s₂, dvmResetHandlerMethod demoPatched (some 1) (some 5) = .ok (tok, s₁) ∧
      dvmRestoreHandlerMethod s₁ (some 1) (some 5) tok = .ok s₂ ∧
      loadClass s₂ (some 1) = .ok { demoActivity with vtable := some 2 } ∧
      loadMethod s₂ (some 5) = .ok
        (demoEngine.createHandlerMethod (some 1) (some 2)
          { name := "onResume", clazz := some 1, methodIndex := 2, insns := .code 2 }) ∧
      s₂.classHandlers = demoPatched.classHandlers ∧
      s₂.classes = demoPatched.classes ∧ s₂.vtables = demoPatched.vtables ∧
      ∀ m, m < demoPatched.methods.length → s₂.methods[m]? = demoPatched.methods[m]? :=
  guard_round_trip demoPatched (some 1) { clazz := some 2, fields := [(8, some 3)] }
    demoMain 0
    { activityHandler with
      clazz := some 1, oldVtable := some 1, handlerClass := some 3, handlerOffset := 8,
      vtable := some 2 }
    1 { demoActivity with vtable := some 2 } 5
    (demoEngine.createHandlerMethod (some 1) (some 2)
      { name := "onResume", clazz := some 1, methodIndex := 2, insns := .code 2 })
    2 { name := "onResume", clazz := some 1, methodIndex := 2, insns := .code 2 }
    rfl rfl (by decide) rfl rfl rfl rfl rfl rfl rfl rfl

/-! ## The dispatch table pointer along calls of the guard -/

theorem onRow_eq_true (s : State) (p : Nat) (obj : Option Nat) (h : onRow s p obj = true) :
    ∃ o oc, loadObject s obj = .ok o ∧ loadClass s o.clazz = .ok oc ∧
      oc.super ≠ s.classJavaLangReflectProxy ∧
      findClassHandler s o.clazz true = .ok (some p) := by
  unfold onRow at h
  split at h
  · cases h
  · rename_i o ho
    split at h
    · cases h
    · rename_i oc hoc
      simp only [Bool.and_eq_true, decide_eq_true_eq] at h
      exact ⟨o, oc, ho, hoc, h.1, h.2⟩

theorem free_frame (s s' : State) (m : Option Nat) (h : free s m = .ok s') :
    s'.classHandlers = s.classHandlers ∧ s'.classes = s.classes := by
  unfold free at h
  split at h
  · cases h; exact ⟨rfl, rfl⟩
  · split at h
    · cases h; exact ⟨rfl, rfl⟩
    · cases h

theorem storeClassVtable_eq (s s' : State) (c : Nat) (cls : ClassObject) (v : Option Nat)
    (hcls : s.classes[c]? = some cls) (h : storeClassVtable s (some c) v = .ok s') :
    s'.classHandlers = s.classHandlers ∧
      s'.classes = s.classes.set c { cls with vtable := v } := by
  simp only [storeClassVtable, hcls, Except.ok.injEq] at h
  subst h
  exact ⟨rfl, rfl⟩

theorem guardStep_frame (s s' : State) (p : Nat) (call : GuardCall) (e : ClassHandler) (c : Nat)
    (cls : ClassObject) (hon : onRow s p call.obj = true)
    (he : s.classHandlers[p]? = some e) (hc : e.clazz = some c)
    (hcls : s.classes[c]? = some cls) (h : guardStep s call = .ok s') :
    s'.classHandlers = s.classHandlers ∧
      s'.classes = s.classes.set c { cls with vtable := call.installs e } := by
  obtain ⟨o, oc, hobj, hoc, hnp, hfind⟩ := onRow_eq_true s p call.obj hon
  cases call with
  | enter obj t =>
    simp only [GuardCall.obj] at hobj
    cases hr : dvmResetHandlerMethod s obj t with
    | error f => simp [guardStep, hr, Except.map] at h
    | ok r =>
      simp only [guardStep, hr, Except.map, Except.ok.injEq] at h
      subst h
      simp only [dvmResetHandlerMethod, bind_eq_ok] at hr
      obtain ⟨o', ho', oc', hoc', hr⟩ := hr
      rw [hobj] at ho'
      cases ho'
      rw [hoc] at hoc'
      cases hoc'
      rw [if_neg hnp] at hr
      simp only [bind_eq_ok] at hr
      obtain ⟨p', hp', hm, -, s2, h2, e', he', s3, h3, hm3, -, orig, -, s4, h4, hr⟩ := hr
      rw [hfind] at hp'
      cases hp'
      simp only [Except.ok.injEq] at hr
      subst hr
      obtain ⟨a1, a2, -⟩ := storeMethod_frame _ _ _ _ h2
      simp only [malloc] at a1 a2
      have he2 : s2.classHandlers[p]? = some e := by rw [a1]; exact he
      simp only [loadHandler, he2, Except.ok.injEq] at he'
      subst he'
      rw [hc] at h3
      obtain ⟨b1, b2⟩ := storeClassVtable_eq s2 s3 c cls _ (by rw [a2]; exact hcls) h3
      obtain ⟨c1, c2, -⟩ := storeMethod_frame _ _ _ _ h4
      exact ⟨c1.trans (b1.trans a1), by rw [c2, b2, a2]; rfl⟩
  | leave obj t m =>
    simp only [GuardCall.obj] at hobj
    simp only [guardStep, dvmRestoreHandlerMethod, bind_eq_ok] at h
    obtain ⟨o', ho', oc', hoc', h⟩ := h
    rw [hobj] at ho'
    cases ho'
    rw [hoc] at hoc'
    cases hoc'
    rw [if_neg hnp] at h
    simp only [bind_eq_ok] at h
    obtain ⟨p', hp', e', he', s1, h1, tok, -, s2, h2, h⟩ := h
    rw [hfind] at hp'
    cases hp'
    simp only [loadHandler, he, Except.ok.injEq] at he'
    subst he'
    rw [hc] at h1
    obtain ⟨b1, b2⟩ := storeClassVtable_eq s s1 c cls _ hcls h1
    obtain ⟨c1, c2, -⟩ := storeMethod_frame _ _ _ _ h2
    obtain ⟨d1, d2⟩ := free_frame _ _ _ h
    exact ⟨d1.trans (c1.trans b1), by rw [d2, c2, b2]; rfl⟩

theorem guardRun_table (p : Nat) (e : ClassHandler) (c : Nat) (hc : e.clazz = some c)
    (calls : List GuardCall) (s s' : State) (cls : ClassObject)
    (he : s.classHandlers[p]? = some e) (hcls : s.classes[c]? = some cls)
    (h : guardRun p s calls = some s') :
    s'.classHandlers = s.classHandlers ∧
    ∃ cls', s'.classes[c]? = some cls' ∧
      match calls.getLast? with
      | none => cls' = cls
      | some call => cls'.vtable = call.installs e := by
  induction calls generalizing s cls with
  | nil =>
    simp only [guardRun, Option.some.injEq] at h
    subst h
    exact ⟨rfl, cls, hcls, rfl⟩
  | cons call rest ih =>
    have hcl := lt_of_getElem?_eq_some hcls
    simp only [guardRun] at h
    split at h
    · rename_i hon
      split at h
      · rename_i s₁ hstep
        obtain ⟨f1, f2⟩ := guardStep_frame s s₁ p call e c cls hon he hc hcls hstep
        have hcls₁ : s₁.classes[c]? = some { cls with vtable := call.installs e } := by
          rw [f2, List.getElem?_set_self hcl]
        obtain ⟨g1, cls', g2, g3⟩ := ih s₁ _ (by rw [f1]; exact he) hcls₁ h
        refine ⟨g1.trans f1, cls', g2, ?_⟩
        cases rest with
        | nil =>
          simp only [List.getLast?_nil] at g3
          subst g3
          rfl
        | cons call' rest' =>
          rw [List.getLast?_cons_cons]
          exact g3
      · cases h
    · cases h

theorem loadMethod_eq_ok (s : State) (m : Option Nat) (v : Method)
    (h : loadMethod s m = .ok v) : ∃ a, m = some a ∧ s.methods[a]? = some (some v) := by
  unfold loadMethod at h
  split at h
  · cases h
  · rename_i a
    split at h
    · rename_i w hw
      cases h
      exact ⟨a, rfl, hw⟩
    · cases h

theorem returns_eq_true {α : Type} (x : Except Fault α) (h : returns x = true) :
    ∃ a, x = .ok a := by
  cases x with
  | error f => cases h
  | ok a => exact ⟨a, rfl⟩

/-- A call of the guard on an object that the lookup sends to a row of a live
class returns as soon as its reads through the `Method*` arguments succeed. -/
theorem guardStep_returns (s : State) (p : Nat) (call : GuardCall) (e : ClassHandler) (c : Nat)
    (cls : ClassObject) (hon : onRow s p call.obj = true)
    (he : s.classHandlers[p]? = some e) (hc : e.clazz = some c)
    (hcls : s.classes[c]? = some cls) (hreads : guardReads s call = true) :
    ∃ s', guardStep s call = .ok s' := by
  obtain ⟨o, oc, hobj, hoc, hnp, hfind⟩ := onRow_eq_true s p call.obj hon
  cases call with
  | enter obj t =>
    simp only [GuardCall.obj] at hobj
    obtain ⟨orig, horig⟩ := returns_eq_true _ hreads
    simp only [bind_eq_ok] at horig
    obtain ⟨hm, hhm, horig⟩ := horig
    obtain ⟨t', rfl, ht⟩ := loadMethod_eq_ok s t hm hhm
    have hrun := dvmResetHandlerMethod_reads s obj o oc p e c cls t' hm orig hobj hoc hnp
      hfind he hc hcls ht horig
    exact ⟨_, by simp only [guardStep, hrun]; rfl⟩
  | leave obj t m =>
    simp only [GuardCall.obj] at hobj
    simp only [guardReads, Bool.and_eq_true] at hreads
    obtain ⟨cur, hcur⟩ := returns_eq_true _ hreads.1
    obtain ⟨saved, hsaved⟩ := returns_eq_true _ hreads.2
    obtain ⟨t', rfl, ht⟩ := loadMethod_eq_ok s t cur hcur
    obtain ⟨k, rfl, hk⟩ := loadMethod_eq_ok s m saved hsaved
    exact ⟨_, dvmRestoreHandlerMethod_run s obj o oc p e c cls t' cur k saved hobj hoc hnp hfind
      he hc hcls ht hk⟩

theorem guardRun_append (p : Nat) (calls : List GuardCall) (call : GuardCall) (s s' s'' : State)
    (h : guardRun p s calls = some s') (hon : onRow s' p call.obj = true)
    (hstep : guardStep s' call = .ok s'') :
    guardRun p s (calls ++ [call]) = some s'' := by
  induction calls generalizing s with
  | nil =>
    simp only [guardRun, Option.some.injEq] at h
    subst h
    simp [guardRun, hon, hstep]
  | cons first rest ih =>
    simp only [guardRun] at h
    split at h
    · rename_i hfirst
      split at h
      · rename_i s₁ h₁
        simp only [List.cons_append, guardRun, hfirst, h₁, if_true]
        exact ih s₁ h
      · cases h
    · cases h

/-- C8: after a successful patch of a registered class the class has the new
dispatch table of the row; and after any sequence of `dvmResetHandlerMethod` and
`dvmRestoreHandlerMethod` calls on objects that are no proxies and that the
recursive lookup sends to that row, nested and overlapping calls included, the
dispatch table pointer of the class is the original table of the row or its new
table, and no other: the new table when no call has been made or the last call
was `dvmRestoreHandlerMethod`, the original table when the last call was
`dvmResetHandlerMethod`.  A sequence can be prolonged by any such call whose
reads through its `Method*` arguments succeed: no other fault ends it. -/
theorem guard_vtable_invariant (env : Engine) (s : State) (c : Nat) (cls : ClassObject)
    (i : Nat) (e : ClassHandler) (h v : Nat) (orig : List (Nat × Method))
    (hcls : s.classes[c]? = some cls)
    (hfind : findClassHandler s (some c) false = .ok (some i))
    (he : s.classHandlers[i]? = some e) (hunres : e.handlerClass = none)
    (hres : env.dvmFindSystemClass e.handlerName = some h)
    (hv : cls.vtable = some v) (harr : s.vtables[v]? = some (orig.map fun x => some x.1))
    (hcount : cls.vtableCount = orig.length)
    (hlive : ∀ x ∈ orig, s.methods[x.1]? = some (some x.2)) :
    ∃ s₁ newV, dvmInterceptClass env s (some c) = .ok (some c, s₁) ∧ newV ≠ v ∧
      ∀ calls s', guardRun i s₁ calls = some s' →
        (∃ cls' e', loadClass s' (some c) = .ok cls' ∧ loadHandler s' (some i) = .ok e' ∧
          e'.oldVtable = some v ∧ e'.vtable = some newV ∧
          (cls'.vtable = some v ∨ cls'.vtable = some newV) ∧
          match calls.getLast? with
          | none => cls'.vtable = some newV
          | some call => cls'.vtable = call.installs e') ∧
        ∀ call, onRow s' i call.obj = true → guardReads s' call = true →
          ∃ s'', guardRun i s₁ (calls ++ [call]) = some s'' := by
  have hil := lt_of_getElem?_eq_some he
  have hcl := lt_of_getElem?_eq_some hcls
  have hvl := lt_of_getElem?_eq_some harr
  refine ⟨patchedState env s c cls i e h orig, s.vtables.length,
    dvmInterceptClass_patched env s c cls i e h v orig hcls hfind he hunres hres hv harr
      hcount hlive, by omega, ?_⟩
  intro calls s' hrun
  have he₁ : (patchedState env s c cls i e h orig).classHandlers[i]? = some
      { e with clazz := some c, oldVtable := cls.vtable, handlerClass := some h,
               handlerOffset := env.dvmFindFieldOffset (some c),
               vtable := some s.vtables.length } := by
    simp [patchedState, List.getElem?_set_self hil]
  have hcls₁ : (patchedState env s c cls i e h orig).classes[c]? = some
      { cls with vtable := some s.vtables.length } := by
    simp [patchedState, List.getElem?_set_self hcl]
  obtain ⟨g1, cls', g2, g3⟩ := guardRun_table i _ c rfl calls _ s' _ he₁ hcls₁ hrun
  refine ⟨⟨cls',
    { e with clazz := some c, oldVtable := cls.vtable, handlerClass := some h,
             handlerOffset := env.dvmFindFieldOffset (some c),
             vtable := some s.vtables.length },
    by simp only [loadClass, g2], by simp only [loadHandler, g1, he₁], hv, rfl, ?_, ?_⟩, ?_⟩
  · cases hl : calls.getLast? with
    | none =>
      rw [hl] at g3
      subst g3
      exact Or.inr rfl
    | some call =>
      rw [hl] at g3
      cases call with
      | enter _ _ => exact Or.inl (g3.trans hv)
      | leave _ _ _ => exact Or.inr g3
  · cases hl : calls.getLast? with
    | none =>
      rw [hl] at g3
      subst g3
      rfl
    | some call =>
      rw [hl] at g3
      exact g3
  · intro call hon hreads
    obtain ⟨s'', hstep⟩ := guardStep_returns s' i call _ c cls' hon (by rw [g1]; exact he₁) rfl
      g2 hreads
    exact ⟨s'', guardRun_append i calls call _ s' s'' hrun hon hstep⟩

/-- Witness of C8: `Activity` of `demoState` patched with `demoEngine`.  Runs of
the guard exist: one window on object 1; two overlapping windows on objects 1
and 0, closed in the order they were opened, after which the class has the new
table 2; and a second `dvmResetHandlerMethod` inside an open window, after which
the class has the original table 1. -/
theorem guard_vtable_invariant_witness :
    (∃ s', guardRun 0 demoPatched
        [.enter (some 1) (some 5), .leave (some 1) (some 5) (some 6)] = some s') ∧
    (guardRun 0 demoPatched
        [.enter (some 1) (some 5), .enter (some 0) (some 5),
         .leave (some 1) (some 5) (some 6), .leave (some 0) (some 5) (some 7)]).map
      (fun s' => (loadClass s' (some 1)).map fun cl => cl.vtable) = some (.ok (some 2)) ∧
    (guardRun 0 demoPatched [.enter (some 1) (some 5), .enter (some 0) (some 5)]).map
      (fun s' => (loadClass s' (some 1)).map fun cl => cl.vtable) = some (.ok (some 1)) ∧
    ∃ s₁ newV, dvmInterceptClass demoEngine demoState (some 1) = .ok (some 1, s₁) ∧ newV ≠ 1 ∧
      ∀ calls s', guardRun 0 s₁ calls = some s' →
        (∃ cls' e', loadClass s' (some 1) = .ok cls' ∧ loadHandler s' (some 0) = .ok e' ∧
          e'.oldVtable = some 1 ∧ e'.vtable = some newV ∧
          (cls'.vtable = some 1 ∨ cls'.vtable = some newV) ∧
          match calls.getLast? with
          | none => cls'.vtable = some newV
          | some call => cls'.vtable = call.installs e') ∧
        ∀ call, onRow s' 0 call.obj = true → guardReads s' call = true →
          ∃ s'', guardRun 0 s₁ (calls ++ [call]) = some s'' :=
  ⟨⟨_, rfl⟩, rfl, rfl,
    guard_vtable_invariant demoEngine demoState 1 demoActivity 0 activityHandler 3 1 demoVtable
      rfl rfl rfl rfl rfl rfl rfl rfl (by decide)⟩

end Intercept
